import Mathlib

/-!
# ossutil `getallpartsize` (lib/allpart_size.go)

A shallow embedding of `AllPartSizeCommand` and its methods `RunCommand`,
`CheckBucketUrl`, `GetAllStatInfo` and `GetObjectPartsSize`.

* The storage SDK is an environment `Remote σ`: every SDK call is a function of
  the request and of the environment state `σ`, and yields a response and a new
  state.  Every call is recorded, with its response, in `Env.calls`.
* Standard output is the list `Env.stdout` of the `fmt.Printf` calls made, each
  kept as its format string and arguments; `Sprintf` renders the `%s` and `%d`
  directives the report lines use.
* The two `for i := 0; ; i++` loops take a bound on the number of iterations and
  stop with `Status.outOfFuel` when it is used up; the state reached so far is
  kept in every case.
* `int64` arithmetic wraps (`int64`).
* Library functions whose code is outside lib/allpart_size.go are the fields of
  `Lib`.
-/

namespace AllPartSize

/-! ## Values -/

/-- A Go `error` value. -/
inductive GoError where
  | sdk (msg : String)
  | errorf (msg : String)
  | numError (fn : String) (num : String) (msg : String)
  deriving DecidableEq, Repr

deriving instance DecidableEq for Except

/-- Two's complement wrap of an integer into the `int64` range (a Go `int64(x)` conversion,
and the result of every `int64` addition). -/
def int64 (x : Int) : Int :=
  (x + 9223372036854775808) % 18446744073709551616 - 9223372036854775808

/-- The `int64` range. -/
def InInt64 (x : Int) : Prop :=
  -9223372036854775808 ≤ x ∧ x < 9223372036854775808

instance (x : Int) : Decidable (InInt64 x) := by
  unfold InInt64; exact inferInstance

/-- Go `CloudURL` of the package (fields read or written by this file). -/
structure CloudURL where
  bucket : String
  object : String
  deriving DecidableEq, Repr

/-- Go `FileURL` of the package. -/
structure FileURL where
  urlStr : String
  deriving DecidableEq, Repr

/-- A value of the interface `StorageURLer`: its dynamic type is `CloudURL` or `FileURL`. -/
inductive StorageURLer where
  | cloud (u : CloudURL)
  | file (u : FileURL)
  deriving DecidableEq, Repr

/-- Go `IsCloudURL()`. -/
def StorageURLer.IsCloudURL : StorageURLer → Bool
  | .cloud _ => true
  | .file _ => false

/-- Go `oss.UncompletedUpload`. -/
structure UncompletedUpload where
  Key : String
  UploadID : String
  deriving DecidableEq, Repr

/-- Go `oss.ListMultipartUploadResult`. -/
structure ListMultipartUploadResult where
  Uploads : List UncompletedUpload
  IsTruncated : Bool
  NextKeyMarker : String
  NextUploadIDMarker : String
  deriving DecidableEq, Repr

/-- Go `oss.UploadedPart`. -/
structure UploadedPart where
  PartNumber : Int
  Size : Int
  deriving DecidableEq, Repr

/-- Go `oss.ListUploadedPartsResult`. -/
structure ListUploadedPartsResult where
  UploadedParts : List UploadedPart
  IsTruncated : Bool
  NextPartNumberMarker : String
  deriving DecidableEq, Repr

/-- Go `oss.InitiateMultipartUploadResult`. -/
structure InitiateMultipartUploadResult where
  Bucket : String
  Key : String
  UploadID : String
  deriving DecidableEq, Repr

/-- Go `oss.Option` values built by this file. -/
inductive OssOption where
  | MaxParts (n : Int)
  | KeyMarker (s : String)
  | UploadIDMarker (s : String)
  | PartNumberMarker (n : Int)
  deriving DecidableEq, Repr

/-- Handle of an SDK client (`*oss.Client`). -/
structure OssClient where
  handle : Nat
  deriving DecidableEq, Repr

/-- Handle of a bucket (`*oss.Bucket`). -/
structure OssBucket where
  handle : Nat
  deriving DecidableEq, Repr

/-- Go `StatPartInfo`: an upload reference. -/
structure StatPartInfo where
  objectName : String
  uploadId : String
  deriving DecidableEq, Repr

/-- Go `allPartSizeOptionType`. -/
structure allPartSizeOptionType where
  bucketName : String
  encodingType : String
  hasOutHeadLine : Bool
  statList : List StatPartInfo
  deriving DecidableEq, Repr

/-- Go `OptionMapType` of the package, as an association list. -/
abbrev OptionMapType := List (String × String)

/-- Go `Command`: the fields `RunCommand` reads. -/
structure Command where
  args : List String
  options : OptionMapType
  deriving DecidableEq, Repr

/-- Go `AllPartSizeCommand`. -/
structure AllPartSizeCommand where
  command : Command
  apOption : allPartSizeOptionType
  deriving DecidableEq, Repr

/-! ## Environment -/

/-- Functions and constants used by lib/allpart_size.go whose code lives elsewhere
(the rest of the package, `strconv`, `net/url`). -/
structure Lib where
  StorageURLFromString : String → String → Except GoError StorageURLer
  ToString : StorageURLer → String
  GetString : String → OptionMapType → String × Option GoError
  OptionEncodingType : String
  URLEncodingType : String
  QueryEscape : String → String
  Atoi : String → Except GoError Int

/-- The SDK calls, as functions of the request and the state of the environment. -/
structure Remote (σ : Type) where
  ossClient : String → σ → Except GoError OssClient × σ
  Bucket : OssClient → String → σ → Except GoError OssBucket × σ
  ListMultipartUploads : OssBucket → List OssOption → σ →
    Except GoError ListMultipartUploadResult × σ
  ListUploadedParts : OssBucket → InitiateMultipartUploadResult → List OssOption → σ →
    Except GoError ListUploadedPartsResult × σ

/-- One SDK call with its request and its response. -/
inductive SdkCall where
  | ossClient (bucketName : String) (res : Except GoError OssClient)
  | Bucket (client : OssClient) (bucketName : String) (res : Except GoError OssBucket)
  | ListMultipartUploads (bucket : OssBucket) (options : List OssOption)
      (res : Except GoError ListMultipartUploadResult)
  | ListUploadedParts (bucket : OssBucket) (imur : InitiateMultipartUploadResult)
      (options : List OssOption) (res : Except GoError ListUploadedPartsResult)
  deriving DecidableEq

/-- The error of a failed response. -/
def errOf {α : Type} : Except GoError α → Option GoError
  | .error e => some e
  | .ok _ => none

/-- The error with which an SDK call failed, if it failed. -/
def SdkCall.failure : SdkCall → Option GoError
  | .ossClient _ res => errOf res
  | .Bucket _ _ res => errOf res
  | .ListMultipartUploads _ _ res => errOf res
  | .ListUploadedParts _ _ _ res => errOf res

/-- An argument of `fmt.Printf`; `float64Div n d` stands for the value `float64(n)/d`. -/
inductive FmtArg where
  | str (s : String)
  | int (n : Int)
  | float64Div (n : Int) (d : Int)
  deriving DecidableEq, Repr

/-- One `fmt.Printf` call. -/
structure Printf where
  format : String
  args : List FmtArg
  deriving DecidableEq, Repr

/-- What the program sees and does outside its own variables. -/
structure Env (σ : Type) where
  remote : σ
  calls : List SdkCall
  stdout : List Printf

/-- How a function ended: it returned, it panicked, or the iteration bound was used up. -/
inductive Status (ρ : Type) where
  | returned (r : ρ)
  | panic
  | outOfFuel
  deriving DecidableEq

/-- Go `fmt.Printf(format, args...)`. -/
def Env.printf {σ : Type} (w : Env σ) (format : String) (args : List FmtArg) : Env σ :=
  { w with stdout := w.stdout ++ [⟨format, args⟩] }

/-- Record an SDK call and move the environment to its new state. -/
def Env.record {σ : Type} (w : Env σ) (remote1 : σ) (c : SdkCall) : Env σ :=
  { w with remote := remote1, calls := w.calls ++ [c] }

/-! ## Format strings of the report -/

def headFormat : String := "%-10s\t%-32s\t%-10s\t%s\n"

def partFormat : String := "%-10d\t%-32s\t%-10d\t%s\n"

def totalFormat : String := "\ntotal part count:%d\ttotal part size(MB):%.2f\n\n"

/-! ## The command -/

/-- Go `CheckBucketUrl`. -/
def CheckBucketUrl (L : Lib) (strlUrl : String) : Except GoError CloudURL :=
  match L.StorageURLFromString strlUrl "" with
  | .error err => .error err
  | .ok bucketUrL =>
    if !bucketUrL.IsCloudURL then
      .error (.errorf ("parameter is not a cloud url,url is " ++ L.ToString bucketUrL))
    else
      -- the type assertion bucketUrL.(CloudURL); IsCloudURL is false for a FileURL,
      -- so the first case is not reached
      match bucketUrL with
      | .file _ => .error (.errorf "interface conversion")
      | .cloud cloudUrl =>
        if cloudUrl.bucket = "" then
          .error (.errorf ("bucket name is empty,url is " ++ L.ToString bucketUrL))
        else
          .ok cloudUrl

/-- The `for i := 0; ; i++` loop of `GetAllStatInfo` (lines 142-166). -/
def GetAllStatInfo.loop {σ : Type} (R : Remote σ) (bucket : OssBucket) :
    Nat → String → String → allPartSizeOptionType → Env σ →
    Status (Option GoError) × allPartSizeOptionType × Env σ
  | 0, _, _, ap, w => (.outOfFuel, ap, w)
  | fuel + 1, keyMarker, uploadIdMarker, ap, w =>
    let lpOptions : List OssOption :=
      [.MaxParts 1000, .KeyMarker keyMarker, .UploadIDMarker uploadIdMarker]
    let r := R.ListMultipartUploads bucket lpOptions w.remote
    let w1 := w.record r.2 (.ListMultipartUploads bucket lpOptions r.1)
    match r.1 with
    | .error err => (.returned (some err), ap, w1)
    | .ok lpRes =>
      let ap1 := { ap with statList :=
        lpRes.Uploads.foldl (fun l v => l ++ [⟨v.Key, v.UploadID⟩]) ap.statList }
      if lpRes.IsTruncated then
        GetAllStatInfo.loop R bucket fuel lpRes.NextKeyMarker lpRes.NextUploadIDMarker ap1 w1
      else
        (.returned none, ap1, w1)

/-- Go `GetAllStatInfo`. -/
def GetAllStatInfo {σ : Type} (R : Remote σ) (fuel : Nat)
    (ap : allPartSizeOptionType) (w : Env σ) :
    Status (Option GoError) × allPartSizeOptionType × Env σ :=
  let r := R.ossClient ap.bucketName w.remote
  let w1 := w.record r.2 (.ossClient ap.bucketName r.1)
  match r.1 with
  | .error err => (.returned (some err), ap, w1)
  | .ok client =>
    let r2 := R.Bucket client ap.bucketName w1.remote
    let w2 := w1.record r2.2 (.Bucket client ap.bucketName r2.1)
    match r2.1 with
    | .error err => (.returned (some err), ap, w2)
    | .ok bucket => GetAllStatInfo.loop R bucket fuel "" "" ap w2

/-- Body of `for _, v := range lpRes.UploadedParts` in `GetObjectPartsSize` (lines 196-207);
the state is `cloudUrl`, `totalPartSize` and the environment. -/
def GetObjectPartsSize.part {σ : Type} (L : Lib) (ap : allPartSizeOptionType)
    (imur : InitiateMultipartUploadResult) (s : CloudURL × Int × Env σ) (v : UploadedPart) :
    CloudURL × Int × Env σ :=
  let cloudUrl1 : CloudURL := { s.1 with bucket := ap.bucketName }
  let cloudUrl2 : CloudURL :=
    if ap.encodingType = L.URLEncodingType then
      { cloudUrl1 with object := L.QueryEscape imur.Key }
    else
      { cloudUrl1 with object := imur.Key }
  (cloudUrl2,
   int64 (s.2.1 + int64 v.Size),
   s.2.2.printf partFormat
     [.int v.PartNumber, .str imur.UploadID, .int v.Size, .str (L.ToString (.cloud cloudUrl2))])

/-- The local variables of `GetObjectPartsSize` that one page of parts changes, with the
option block and the environment. -/
structure GetObjectPartsSize.Vars (σ : Type) where
  totalPartCount : Int
  totalPartSize : Int
  cloudUrl : CloudURL
  ap : allPartSizeOptionType
  w : Env σ

/-- What `GetObjectPartsSize` does with one page it received (lines 189-207): count the parts,
print the header line before the first part ever printed, then print and add up the parts. -/
def GetObjectPartsSize.page {σ : Type} (L : Lib) (imur : InitiateMultipartUploadResult)
    (lpRes : ListUploadedPartsResult) (x : GetObjectPartsSize.Vars σ) :
    GetObjectPartsSize.Vars σ :=
  let totalPartCount1 := int64 (x.totalPartCount + int64 lpRes.UploadedParts.length)
  let head : Bool := !x.ap.hasOutHeadLine && decide (0 < lpRes.UploadedParts.length)
  let w2 :=
    if head then
      x.w.printf headFormat [.str "PartNumber", .str "UploadId", .str "Size(Byte)", .str "Path"]
    else x.w
  let ap2 := if head then { x.ap with hasOutHeadLine := true } else x.ap
  let s := lpRes.UploadedParts.foldl (GetObjectPartsSize.part L ap2 imur)
    (x.cloudUrl, x.totalPartSize, w2)
  { totalPartCount := totalPartCount1, totalPartSize := s.2.1, cloudUrl := s.1, ap := ap2,
    w := s.2.2 }

/-- The `for i := 0; ; i++` loop of `GetObjectPartsSize` (lines 180-217). -/
def GetObjectPartsSize.loop {σ : Type} (L : Lib) (R : Remote σ) (bucket : OssBucket)
    (imur : InitiateMultipartUploadResult) :
    Nat → Int → GetObjectPartsSize.Vars σ →
    Status (Int × Int × Option GoError) × allPartSizeOptionType × Env σ
  | 0, _, x => (.outOfFuel, x.ap, x.w)
  | fuel + 1, partNumberMarker, x =>
    let lpOptions : List OssOption := [.MaxParts 1000, .PartNumberMarker partNumberMarker]
    let r := R.ListUploadedParts bucket imur lpOptions x.w.remote
    let w1 := x.w.record r.2 (.ListUploadedParts bucket imur lpOptions r.1)
    match r.1 with
    | .error err => (.returned (0, 0, some err), x.ap, w1)
    | .ok lpRes =>
      let y := GetObjectPartsSize.page L imur lpRes { x with w := w1 }
      if lpRes.IsTruncated then
        match L.Atoi lpRes.NextPartNumberMarker with
        | .error err => (.returned (0, 0, some err), y.ap, y.w)
        | .ok marker => GetObjectPartsSize.loop L R bucket imur fuel marker y
      else
        (.returned (y.totalPartCount, y.totalPartSize, none), y.ap, y.w)

/-- Go `GetObjectPartsSize`. -/
def GetObjectPartsSize {σ : Type} (L : Lib) (R : Remote σ) (fuel : Nat) (bucket : OssBucket)
    (statInfo : StatPartInfo) (ap : allPartSizeOptionType) (w : Env σ) :
    Status (Int × Int × Option GoError) × allPartSizeOptionType × Env σ :=
  let imur : InitiateMultipartUploadResult :=
    { Bucket := ap.bucketName, Key := statInfo.objectName, UploadID := statInfo.uploadId }
  GetObjectPartsSize.loop L R bucket imur fuel 0 ⟨0, 0, ⟨"", ""⟩, ap, w⟩

/-- The `for _, v := range apc.apOption.statList` loop of `RunCommand` (lines 95-102);
it returns the two totals, or the error that made `RunCommand` return. -/
def RunCommand.sum {σ : Type} (L : Lib) (R : Remote σ) (fuel : Nat) (bucket : OssBucket) :
    List StatPartInfo → Int → Int → allPartSizeOptionType → Env σ →
    Status (Except GoError (Int × Int)) × allPartSizeOptionType × Env σ
  | [], totalPartCount, totalPartSize, ap, w => (.returned (.ok (totalPartCount, totalPartSize)), ap, w)
  | v :: rest, totalPartCount, totalPartSize, ap, w =>
    match GetObjectPartsSize L R fuel bucket v ap w with
    | (.outOfFuel, ap1, w1) => (.outOfFuel, ap1, w1)
    | (.panic, ap1, w1) => (.panic, ap1, w1)
    | (.returned (_, _, some err), ap1, w1) => (.returned (.error err), ap1, w1)
    | (.returned (partCount, partSize, none), ap1, w1) =>
      RunCommand.sum L R fuel bucket rest
        (int64 (totalPartCount + partCount)) (int64 (totalPartSize + partSize)) ap1 w1

/-- Lines 68-102 of `RunCommand`: everything up to the end of the summing loop.  The
result is the error returned, or the totals with which line 104 is reached. -/
def RunCommand.body {σ : Type} (L : Lib) (R : Remote σ) (fuel : Nat)
    (apc : AllPartSizeCommand) (w : Env σ) :
    Status (Except GoError (Int × Int)) × AllPartSizeCommand × Env σ :=
  match apc.command.args with
  | [] => (.panic, apc, w)
  | arg0 :: _ =>
    match CheckBucketUrl L arg0 with
    | .error err => (.returned (.error err), apc, w)
    | .ok srcBucketUrL =>
      let ap0 := { apc.apOption with
        bucketName := srcBucketUrL.bucket,
        encodingType := (L.GetString L.OptionEncodingType apc.command.options).1 }
      match GetAllStatInfo R fuel ap0 w with
      | (.outOfFuel, ap1, w1) => (.outOfFuel, { apc with apOption := ap1 }, w1)
      | (.panic, ap1, w1) => (.panic, { apc with apOption := ap1 }, w1)
      | (.returned (some err), ap1, w1) => (.returned (.error err), { apc with apOption := ap1 }, w1)
      | (.returned none, ap1, w1) =>
        let r := R.ossClient ap1.bucketName w1.remote
        let w2 := w1.record r.2 (.ossClient ap1.bucketName r.1)
        match r.1 with
        | .error err => (.returned (.error err), { apc with apOption := ap1 }, w2)
        | .ok client =>
          let r3 := R.Bucket client ap1.bucketName w2.remote
          let w3 := w2.record r3.2 (.Bucket client ap1.bucketName r3.1)
          match r3.1 with
          | .error err => (.returned (.error err), { apc with apOption := ap1 }, w3)
          | .ok bucket =>
            let r4 := RunCommand.sum L R fuel bucket ap1.statList 0 0 ap1 w3
            (r4.1, { apc with apOption := r4.2.1 }, r4.2.2)

/-- Go `RunCommand`: the body, then the grand-total line when `totalPartSize > 0`. -/
def RunCommand {σ : Type} (L : Lib) (R : Remote σ) (fuel : Nat)
    (apc : AllPartSizeCommand) (w : Env σ) :
    Status (Option GoError) × AllPartSizeCommand × Env σ :=
  match RunCommand.body L R fuel apc w with
  | (.outOfFuel, apc1, w1) => (.outOfFuel, apc1, w1)
  | (.panic, apc1, w1) => (.panic, apc1, w1)
  | (.returned (.error err), apc1, w1) => (.returned (some err), apc1, w1)
  | (.returned (.ok (totalPartCount, totalPartSize)), apc1, w1) =>
    if 0 < totalPartSize then
      (.returned none, apc1,
        w1.printf totalFormat
          [.int totalPartCount, .float64Div (Int.tdiv totalPartSize 1024) 1024])
    else
      (.returned none, apc1, w1)

/-! ## Two environments -/

/-- The responses an environment will give, in the order of the calls of each kind. -/
structure Script where
  clients : List (Except GoError OssClient)
  buckets : List (Except GoError OssBucket)
  uploads : List (Except GoError ListMultipartUploadResult)
  parts : List (Except GoError ListUploadedPartsResult)

/-- The error answered once a script is used up. -/
def noResponse : GoError := .sdk "no response"

/-- The environment that answers every call with the next response of its script,
whatever the request. -/
def scripted : Remote Script where
  ossClient _ s :=
    match s.clients with
    | [] => (.error noResponse, s)
    | r :: rest => (r, { s with clients := rest })
  Bucket _ _ s :=
    match s.buckets with
    | [] => (.error noResponse, s)
    | r :: rest => (r, { s with buckets := rest })
  ListMultipartUploads _ _ s :=
    match s.uploads with
    | [] => (.error noResponse, s)
    | r :: rest => (r, { s with uploads := rest })
  ListUploadedParts _ _ _ s :=
    match s.parts with
    | [] => (.error noResponse, s)
    | r :: rest => (r, { s with parts := rest })

/-- An environment without state: every response is a function of the request alone. -/
def stateless
    (client : String → Except GoError OssClient)
    (bucket : OssClient → String → Except GoError OssBucket)
    (uploads : OssBucket → List OssOption → Except GoError ListMultipartUploadResult)
    (parts : OssBucket → InitiateMultipartUploadResult → List OssOption →
      Except GoError ListUploadedPartsResult) : Remote Unit where
  ossClient n s := (client n, s)
  Bucket c n s := (bucket c n, s)
  ListMultipartUploads b o s := (uploads b o, s)
  ListUploadedParts b i o s := (parts b i o, s)

/-! ## Rendering of the report lines -/

/-- Pad `s` with spaces up to width `wid`: on the right with the `-` flag, else on the left;
a longer `s` is left as it is. -/
def Sprintf.pad ( minus : Bool) (wid : Nat) (s : String) : String :=
  if minus then s ++ String.mk (List.replicate (wid - s.length) ' ')
  else String.mk (List.replicate (wid - s.length) ' ') ++ s

/-- State of the scan of a format string: the text produced, the arguments left, and, inside
a directive, its `-` flag and the width read so far. -/
structure Sprintf.State where
  out : String
  args : List FmtArg
  directive : Option (Bool × Nat)
  bad : Bool

/-- One character of the format string.  The directives are `%[-][width]s` and
`%[-][width]d`; anything else after `%`, or an argument of the wrong kind, sets `bad`. -/
def Sprintf.step (s : Sprintf.State) (c : Char) : Sprintf.State :=
  match s.directive with
  | none =>
    if c = '%' then { s with directive := some (false, 0) }
    else { s with out := s.out ++ String.mk [c] }
  | some (minus, wid) =>
    if c = '-' then
      if wid = 0 then { s with directive := some (true, 0) } else { s with bad := true }
    else if c.isDigit then
      if c = '0' ∧ wid = 0 then { s with bad := true }
      else { s with directive := some (minus, wid * 10 + (c.toNat - 48)) }
    else if c = 's' then
      match s.args with
      | .str x :: rest =>
        { s with out := s.out ++ Sprintf.pad minus wid x, args := rest, directive := none }
      | _ => { s with bad := true }
    else if c = 'd' then
      match s.args with
      | .int n :: rest =>
        { s with out := s.out ++ Sprintf.pad minus wid (toString n), args := rest,
                 directive := none }
      | _ => { s with bad := true }
    else { s with bad := true }

/-- Text of `fmt.Sprintf(format, args...)` for formats made of the directives above with as
many arguments as directives; `none` for any other format. -/
def Sprintf (format : String) (args : List FmtArg) : Option String :=
  let s := format.data.foldl Sprintf.step ⟨"", args, none, false⟩
  if s.bad = false ∧ s.directive = none ∧ s.args = [] then some s.out else none

/-- A field `f` holds `s` left-justified in a column `wid` wide: `s` followed by spaces only,
as many as it takes to reach `wid`, and none when `s` is that long already. -/
def LeftJustified (wid : Nat) (s f : String) : Prop :=
  ∃ k, f = s ++ String.mk (List.replicate k ' ') ∧ f.length = max wid s.length

/-! ## Specification vocabulary -/

/-- The header line of the report (line 191). -/
def headLine : Printf :=
  ⟨headFormat, [.str "PartNumber", .str "UploadId", .str "Size(Byte)", .str "Path"]⟩

/-- The path column of a part line: the cloud URL of the object, its key query-escaped when
the encoding type asks for it (lines 197-205). -/
def objectPath (L : Lib) (ap : allPartSizeOptionType) (key : String) : String :=
  L.ToString (.cloud ⟨ap.bucketName,
    if ap.encodingType = L.URLEncodingType then L.QueryEscape key else key⟩)

/-- The report line of one part (line 205). -/
def partLine (L : Lib) (ap : allPartSizeOptionType) (imur : InitiateMultipartUploadResult)
    (v : UploadedPart) : Printf :=
  ⟨partFormat, [.int v.PartNumber, .str imur.UploadID, .int v.Size, .str (objectPath L ap imur.Key)]⟩

/-- Sum of the sizes of a list of parts. -/
def sizeOfParts (parts : List UploadedPart) : Int := (parts.map (fun v => v.Size)).sum

/-- Number of parts on a list of pages. -/
def countOfPages (pages : List ListUploadedPartsResult) : Int :=
  (pages.map (fun p => (p.UploadedParts.length : Int))).sum

/-- Sum of the sizes of the parts on a list of pages. -/
def sizeOfPages (pages : List ListUploadedPartsResult) : Int :=
  (pages.map (fun p => sizeOfParts p.UploadedParts)).sum

/-- The lines one page of parts adds to the report: the header line if none was printed yet
and the page has a part, then one line per part. -/
def pageLines (L : Lib) (ap : allPartSizeOptionType) (imur : InitiateMultipartUploadResult)
    (p : ListUploadedPartsResult) : List Printf :=
  (if !ap.hasOutHeadLine && decide (0 < p.UploadedParts.length) then [headLine] else [])
    ++ p.UploadedParts.map (partLine L ap imur)


/-- The upload reference made from one listed upload (lines 154-156). -/
def refOfUpload (v : UncompletedUpload) : StatPartInfo := ⟨v.Key, v.UploadID⟩

/-- The upload references of a list of pages of uploads: page after page, and within a page
in the order of the page. -/
def refsOfPages : List ListMultipartUploadResult → List StatPartInfo
  | [] => []
  | p :: ps => p.Uploads.map refOfUpload ++ refsOfPages ps

/-- The requests of the upload-listing loop, read off the record of its calls, together with
the way the loop ended.  A run that starts with markers `km`, `um` is a list of
`ListMultipartUploads` calls on `bucket`: each carries `MaxParts(1000)` and the markers
current at that point; after a failed call nothing follows and the error is returned; after
a page that is not truncated nothing follows and `nil` is returned; after a truncated page
the run goes on with the `NextKeyMarker` and `NextUploadIDMarker` of that page.  The run may
also stop where the iteration bound is used up. -/
def UploadsRun (bucket : OssBucket) (status : Status (Option GoError)) :
    String → String → List SdkCall → Prop
  | _, _, [] => status = .outOfFuel
  | km, um, c :: rest =>
    match c with
    | .ListMultipartUploads b o res =>
      b = bucket ∧ o = [.MaxParts 1000, .KeyMarker km, .UploadIDMarker um] ∧
      (match res with
       | .error e => rest = [] ∧ status = .returned (some e)
       | .ok p =>
         if p.IsTruncated then UploadsRun bucket status p.NextKeyMarker p.NextUploadIDMarker rest
         else rest = [] ∧ status = .returned none)
    | _ => False

/-- The requests of the part-listing loop, read off the record of its calls, together with the
way the loop ended.  A run that starts with part-number marker `m` is a list of
`ListUploadedParts` calls on `bucket` and `imur`: each carries `MaxParts(1000)` and the
marker current at that point; after a failed call nothing follows and `(0, 0, err)` is
returned; after a page that is not truncated nothing follows and the totals are returned
with a `nil` error; after a truncated page whose `NextPartNumberMarker` `Atoi` rejects
nothing follows and `(0, 0, err)` is returned; after a truncated page whose marker parses to
`k` the run goes on with marker `k`. -/
def PartsRun (L : Lib) (bucket : OssBucket) (imur : InitiateMultipartUploadResult)
    (status : Status (Int × Int × Option GoError)) : Int → List SdkCall → Prop
  | _, [] => status = .outOfFuel
  | m, c :: rest =>
    match c with
    | .ListUploadedParts b i o res =>
      b = bucket ∧ i = imur ∧ o = [.MaxParts 1000, .PartNumberMarker m] ∧
      (match res with
       | .error e => rest = [] ∧ status = .returned (0, 0, some e)
       | .ok p =>
         if p.IsTruncated then
           match L.Atoi p.NextPartNumberMarker with
           | .error e => rest = [] ∧ status = .returned (0, 0, some e)
           | .ok k => PartsRun L bucket imur status k rest
         else rest = [] ∧ ∃ count size, status = .returned (count, size, none))
    | _ => False

/-- Every failed call of `calls` is the last of them, and `P` holds of its error. -/
def FailsLast (calls : List SdkCall) (P : GoError → Prop) : Prop :=
  ∀ pre c post e, calls = pre ++ c :: post → c.failure = some e → post = [] ∧ P e

/-- The environment serves `pages` as the listing of the uploads of `bucket`: asked with
markers `km`, `um` in state `s` it answers with the first page; a truncated page is followed
by the answer to the request that carries its `NextKeyMarker` and `NextUploadIDMarker`; the
listing ends, in state `s1`, with the first page that is not truncated. -/
def UploadsServed {σ : Type} (R : Remote σ) (bucket : OssBucket) :
    String → String → σ → List ListMultipartUploadResult → σ → Prop
  | _, _, _, [], _ => False
  | km, um, s, p :: rest, s1 =>
    ∃ s0, R.ListMultipartUploads bucket
        [.MaxParts 1000, .KeyMarker km, .UploadIDMarker um] s = (.ok p, s0)
      ∧ (if p.IsTruncated then
           UploadsServed R bucket p.NextKeyMarker p.NextUploadIDMarker s0 rest s1
         else rest = [] ∧ s0 = s1)

/-- The environment serves `pages` as the listing of the parts of the upload `imur`: asked
with part-number marker `m` in state `s` it answers with the first page; a truncated page
carries a `NextPartNumberMarker` that `Atoi` parses and is followed by the answer to the
request that carries that number; the listing ends, in state `s1`, with the first page that
is not truncated. -/
def PartsServed {σ : Type} (L : Lib) (R : Remote σ) (bucket : OssBucket)
    (imur : InitiateMultipartUploadResult) :
    Int → σ → List ListUploadedPartsResult → σ → Prop
  | _, _, [], _ => False
  | m, s, p :: rest, s1 =>
    ∃ s0, R.ListUploadedParts bucket imur [.MaxParts 1000, .PartNumberMarker m] s = (.ok p, s0)
      ∧ (if p.IsTruncated then
           ∃ k, L.Atoi p.NextPartNumberMarker = .ok k ∧ PartsServed L R bucket imur k s0 rest s1
         else rest = [] ∧ s0 = s1)

/-- The environment serves, for each upload reference of `refs` in turn, the listing of its
parts that stands at the same place in `chains`; each listing is asked for with the bucket
name and the key and upload id of its own reference, from part-number marker 0. -/
def AllPartsServed {σ : Type} (L : Lib) (R : Remote σ) (bucket : OssBucket)
    (bucketName : String) :
    List StatPartInfo → σ → List (List ListUploadedPartsResult) → σ → Prop
  | [], s, [], s1 => s = s1
  | v :: vs, s, ch :: chs, s1 =>
    ∃ s0, PartsServed L R bucket ⟨bucketName, v.objectName, v.uploadId⟩ 0 s ch s0
      ∧ AllPartsServed L R bucket bucketName vs s0 chs s1
  | _, _, _, _ => False

/-- The pages of several listings, one listing after the other. -/
def allPages : List (List ListUploadedPartsResult) → List ListUploadedPartsResult
  | [] => []
  | ch :: chs => ch ++ allPages chs

/-- The pages of parts received, read off a record of calls: the responses of the
`ListUploadedParts` calls that succeeded, in the order of the calls. -/
def pagesOfCalls : List SdkCall → List ListUploadedPartsResult
  | [] => []
  | .ListUploadedParts _ _ _ (.ok p) :: rest => p :: pagesOfCalls rest
  | _ :: rest => pagesOfCalls rest

/-- The lines a sequence of pages of parts adds to the report, page after page: `pageLines`
of each page, the header line counting as printed from the first page that has a part. -/
def reportLines (L : Lib) (imur : InitiateMultipartUploadResult) :
    allPartSizeOptionType → List ListUploadedPartsResult → List Printf
  | _, [] => []
  | ap, p :: ps =>
    pageLines L ap imur p
      ++ reportLines L imur
          { ap with hasOutHeadLine := ap.hasOutHeadLine || decide (0 < p.UploadedParts.length) } ps

/-! ## A concrete library and concrete responses, for the examples -/

/-- Value of a string of decimal digits; `none` if a character is not a digit. -/
def digitsValue : List Char → Nat → Option Nat
  | [], acc => some acc
  | c :: cs, acc => if c.isDigit then digitsValue cs (acc * 10 + (c.toNat - 48)) else none

/-- Decimal parsing in the manner of `strconv.Atoi` with a 64-bit `int`: an optional sign, then
one or more digits, and a value in the `int64` range. -/
def decimalAtoi (s : String) : Except GoError Int :=
  let body : List Char :=
    match s.data with
    | '-' :: cs => cs
    | '+' :: cs => cs
    | cs => cs
  let neg : Bool :=
    match s.data with
    | '-' :: _ => true
    | _ => false
  match body with
  | [] => .error (.numError "Atoi" s "invalid syntax")
  | _ =>
    match digitsValue body 0 with
    | none => .error (.numError "Atoi" s "invalid syntax")
    | some n =>
      let v : Int := if neg then -(n : Int) else (n : Int)
      if InInt64 v then .ok v else .error (.numError "Atoi" s "value out of range")

/-- Split `oss://bucket/object` into bucket and object. -/
def exampleParse (s : String) : Except GoError StorageURLer :=
  if "oss://".data.isPrefixOf s.data then
    let rest := s.data.drop 6
    let bucket := rest.takeWhile (fun c => c != '/')
    let object := (rest.dropWhile (fun c => c != '/')).drop 1
    .ok (.cloud ⟨String.mk bucket, String.mk object⟩)
  else if s = "" then .error (.errorf "empty url")
  else .ok (.file ⟨s⟩)

/-- A library instance used in the examples: `oss://bucket/object` URLs, options looked up in
the association list, `Atoi` as above, and a query escape that only turns spaces into `+`. -/
def exampleLib : Lib where
  StorageURLFromString s _ := exampleParse s
  ToString u :=
    match u with
    | .cloud c => if c.object = "" then "oss://" ++ c.bucket else "oss://" ++ c.bucket ++ "/" ++ c.object
    | .file f => f.urlStr
  GetString name options := ((options.lookup name).getD "", none)
  OptionEncodingType := "encodingType"
  URLEncodingType := "url"
  QueryEscape s := String.mk (s.data.map (fun c => if c = ' ' then '+' else c))
  Atoi := decimalAtoi

/-- A command as `Init` leaves it: one argument, no option set, nothing gathered yet. -/
def exampleCommand : AllPartSizeCommand :=
  { command := { args := ["oss://b"], options := [] },
    apOption := { bucketName := "", encodingType := "", hasOutHeadLine := false, statList := [] } }

/-- An environment at the start of a run of the scripted SDK. -/
def scriptedEnv (s : Script) : Env Script := { remote := s, calls := [], stdout := [] }

/-- Pages of parts: a truncated page with two parts and marker `2`, then a last page with one. -/
def examplePage1 : ListUploadedPartsResult :=
  { UploadedParts := [⟨1, 100⟩, ⟨2, 50⟩], IsTruncated := true, NextPartNumberMarker := "2" }

def examplePage2 : ListUploadedPartsResult :=
  { UploadedParts := [⟨3, 7⟩], IsTruncated := false, NextPartNumberMarker := "" }

/-- Pages of uploads: a truncated page with one upload, then a last page with one. -/
def exampleUploads1 : ListMultipartUploadResult :=
  { Uploads := [⟨"k1", "u1"⟩], IsTruncated := true, NextKeyMarker := "k1", NextUploadIDMarker := "u1" }

def exampleUploads2 : ListMultipartUploadResult :=
  { Uploads := [⟨"k2", "u2"⟩], IsTruncated := false, NextKeyMarker := "", NextUploadIDMarker := "" }

/-- A script in which every call succeeds: two uploads, the first with the two pages of parts
above, the second with a single page of one part. -/
def exampleScript : Script :=
  { clients := [.ok ⟨1⟩, .ok ⟨2⟩],
    buckets := [.ok ⟨1⟩, .ok ⟨2⟩],
    uploads := [.ok exampleUploads1, .ok exampleUploads2],
    parts := [.ok examplePage1, .ok examplePage2, .ok examplePage2] }

/-- A script in which the second page of parts of the first upload fails. -/
def failingScript : Script :=
  { exampleScript with parts := [.ok examplePage1, .error (.sdk "boom")] }

/-- A script with one upload whose only part is empty. -/
def emptyPartScript : Script :=
  { clients := [.ok ⟨1⟩, .ok ⟨2⟩],
    buckets := [.ok ⟨1⟩, .ok ⟨2⟩],
    uploads := [.ok exampleUploads2],
    parts := [.ok { UploadedParts := [⟨1, 0⟩], IsTruncated := false, NextPartNumberMarker := "" }] }

/-- A last page with one part of 2048 bytes. -/
def repeatPage : ListUploadedPartsResult :=
  { UploadedParts := [⟨1, 2048⟩], IsTruncated := false, NextPartNumberMarker := "" }

/-- An SDK without state that lists one upload and, for it, one part of 2048 bytes, each
time it is asked. -/
def repeatingSdk : Remote Unit :=
  stateless (fun _ => .ok ⟨1⟩) (fun _ _ => .ok ⟨1⟩) (fun _ _ => .ok exampleUploads2)
    (fun _ _ _ => .ok repeatPage)

/-- A truncated page of two parts whose next-part-number marker is not a number. -/
def badMarkerPage : ListUploadedPartsResult :=
  { UploadedParts := [⟨1, 100⟩, ⟨2, 50⟩], IsTruncated := true, NextPartNumberMarker := "x" }

/-- A script in which every call succeeds: one upload, and for it the page above followed by
a last page. -/
def badMarkerScript : Script :=
  { clients := [.ok ⟨1⟩, .ok ⟨2⟩],
    buckets := [.ok ⟨1⟩, .ok ⟨2⟩],
    uploads := [.ok exampleUploads2],
    parts := [.ok badMarkerPage, .ok examplePage2] }

/-- An SDK without state whose answers depend on the request: the upload listing has two
pages (found from the empty markers, then from the markers of the first page), the first
upload has the two example pages of parts (found from marker 0, then from marker 2), the
second upload a single page with one part of 2048 bytes, and any other request fails. -/
def pagedSdk : Remote Unit :=
  stateless (fun _ => .ok ⟨1⟩) (fun _ _ => .ok ⟨1⟩)
    (fun _ o =>
      if o = [.MaxParts 1000, .KeyMarker "", .UploadIDMarker ""] then .ok exampleUploads1
      else if o = [.MaxParts 1000, .KeyMarker "k1", .UploadIDMarker "u1"] then
        .ok exampleUploads2
      else .error (.sdk "InvalidArgument"))
    (fun _ i o =>
      if i = ⟨"b", "k1", "u1"⟩ then
        if o = [.MaxParts 1000, .PartNumberMarker 0] then .ok examplePage1
        else if o = [.MaxParts 1000, .PartNumberMarker 2] then .ok examplePage2
        else .error (.sdk "InvalidArgument")
      else if i = ⟨"b", "k2", "u2"⟩ then
        if o = [.MaxParts 1000, .PartNumberMarker 0] then .ok repeatPage
        else .error (.sdk "InvalidArgument")
      else .error (.sdk "NoSuchUpload"))
/-! ## Arithmetic of `int64` -/

theorem int64_idem (x : Int) : int64 (int64 x) = int64 x := by
  unfold int64; omega

theorem int64_add_left (a b : Int) : int64 (int64 a + b) = int64 (a + b) := by
  unfold int64; omega

theorem int64_add_right (a b : Int) : int64 (a + int64 b) = int64 (a + b) := by
  unfold int64; omega

theorem int64_of_inInt64 {x : Int} (h : InInt64 x) : int64 x = x := by
  unfold InInt64 at h; unfold int64; omega

theorem part_foldl_size {σ : Type} (L : Lib) (ap : allPartSizeOptionType)
    (imur : InitiateMultipartUploadResult) (parts : List UploadedPart) :
    ∀ s : CloudURL × Int × Env σ, int64 s.2.1 = s.2.1 →
      (parts.foldl (GetObjectPartsSize.part L ap imur) s).2.1
        = int64 (s.2.1 + sizeOfParts parts) := by
  induction parts with
  | nil => intro s hs; simp [sizeOfParts, hs]
  | cons v rest ih =>
    intro s _
    rw [List.foldl_cons, ih _ (by simp [GetObjectPartsSize.part, int64_idem])]
    simp only [GetObjectPartsSize.part, sizeOfParts, List.map_cons, List.sum_cons]
    rw [int64_add_left, ← add_assoc, add_right_comm, int64_add_right, add_right_comm]

theorem part_foldl_env {σ : Type} (L : Lib) (ap : allPartSizeOptionType)
    (imur : InitiateMultipartUploadResult) (parts : List UploadedPart) :
    ∀ s : CloudURL × Int × Env σ,
      (parts.foldl (GetObjectPartsSize.part L ap imur) s).2.2
        = { s.2.2 with stdout := s.2.2.stdout ++ parts.map (partLine L ap imur) } := by
  induction parts with
  | nil => intro s; simp
  | cons v rest ih =>
    intro s
    rw [List.foldl_cons, ih]
    simp [GetObjectPartsSize.part, Env.printf, partLine, objectPath]
    split <;> rfl

theorem page_count {σ : Type} (L : Lib) (imur : InitiateMultipartUploadResult)
    (p : ListUploadedPartsResult) (x : GetObjectPartsSize.Vars σ) :
    (GetObjectPartsSize.page L imur p x).totalPartCount
      = int64 (x.totalPartCount + (p.UploadedParts.length : Int)) := by
  simp [GetObjectPartsSize.page, int64_add_right]

theorem page_size {σ : Type} (L : Lib) (imur : InitiateMultipartUploadResult)
    (p : ListUploadedPartsResult) (x : GetObjectPartsSize.Vars σ)
    (h : int64 x.totalPartSize = x.totalPartSize) :
    (GetObjectPartsSize.page L imur p x).totalPartSize
      = int64 (x.totalPartSize + sizeOfParts p.UploadedParts) := by
  simp only [GetObjectPartsSize.page]
  rw [part_foldl_size _ _ _ _ _ h]

theorem page_ap {σ : Type} (L : Lib) (imur : InitiateMultipartUploadResult)
    (p : ListUploadedPartsResult) (x : GetObjectPartsSize.Vars σ) :
    (GetObjectPartsSize.page L imur p x).ap
      = { x.ap with hasOutHeadLine := x.ap.hasOutHeadLine || decide (0 < p.UploadedParts.length) } := by
  rcases x with ⟨c, s, cu, ⟨bn, et, h, sl⟩, w⟩
  simp only [GetObjectPartsSize.page]
  cases h <;> by_cases h2 : 0 < p.UploadedParts.length <;> simp [h2]

theorem page_w {σ : Type} (L : Lib) (imur : InitiateMultipartUploadResult)
    (p : ListUploadedPartsResult) (x : GetObjectPartsSize.Vars σ) :
    (GetObjectPartsSize.page L imur p x).w
      = { x.w with stdout := x.w.stdout ++ pageLines L x.ap imur p } := by
  rcases x with ⟨c, s, cu, ⟨bn, et, h, sl⟩, w⟩
  simp only [GetObjectPartsSize.page, part_foldl_env, pageLines]
  cases h <;> by_cases h2 : 0 < p.UploadedParts.length <;>
    simp [h2, Env.printf, headLine, partLine, objectPath]


theorem scripted_parts (b : OssBucket) (i : InitiateMultipartUploadResult) (o : List OssOption)
    (s : Script) (r : Except GoError ListUploadedPartsResult)
    (rest : List (Except GoError ListUploadedPartsResult)) (h : s.parts = r :: rest) :
    scripted.ListUploadedParts b i o s = (r, { s with parts := rest }) := by
  simp [scripted, h]

theorem GOPS_loop_scripted (L : Lib) (bucket : OssBucket) (imur : InitiateMultipartUploadResult)
    (last : ListUploadedPartsResult) (hlast : last.IsTruncated = false)
    (rest : List (Except GoError ListUploadedPartsResult)) :
    ∀ (pre : List ListUploadedPartsResult),
      (∀ p ∈ pre, p.IsTruncated = true ∧ ∃ n, L.Atoi p.NextPartNumberMarker = .ok n) →
    ∀ (fuel : Nat) (m : Int) (x : GetObjectPartsSize.Vars Script),
      x.w.remote.parts = (pre ++ [last]).map .ok ++ rest → pre.length + 1 ≤ fuel →
      int64 x.totalPartSize = x.totalPartSize →
      (GetObjectPartsSize.loop L scripted bucket imur fuel m x).1
          = .returned (int64 (x.totalPartCount + countOfPages (pre ++ [last])),
                       int64 (x.totalPartSize + sizeOfPages (pre ++ [last])), none)
      ∧ (GetObjectPartsSize.loop L scripted bucket imur fuel m x).2.2.remote
          = { x.w.remote with parts := rest }
      ∧ (GetObjectPartsSize.loop L scripted bucket imur fuel m x).2.1.bucketName
          = x.ap.bucketName
      ∧ (GetObjectPartsSize.loop L scripted bucket imur fuel m x).2.1.encodingType
          = x.ap.encodingType
      ∧ (GetObjectPartsSize.loop L scripted bucket imur fuel m x).2.1.statList
          = x.ap.statList := by
  intro pre
  induction pre with
  | nil =>
    intro _ fuel m x hw hfuel hs
    obtain ⟨n, rfl⟩ : ∃ n, fuel = n + 1 := ⟨fuel - 1, by omega⟩
    have hw1 : x.w.remote.parts = .ok last :: rest := by simpa using hw
    simp only [GetObjectPartsSize.loop, scripted_parts _ _ _ _ _ _ hw1, hlast]
    simp [page_count, page_size, page_ap, page_w, hs, Env.record, countOfPages, sizeOfPages]
  | cons p pre ih =>
    intro hpre fuel m x hw hfuel hs
    obtain ⟨n, rfl⟩ : ∃ n, fuel = n + 1 := ⟨fuel - 1, by simp at hfuel; omega⟩
    have hw1 : x.w.remote.parts = .ok p :: ((pre ++ [last]).map .ok ++ rest) := by simpa using hw
    obtain ⟨hpt, k, hk⟩ := hpre p (by simp)
    simp only [GetObjectPartsSize.loop, scripted_parts _ _ _ _ _ _ hw1, hpt, hk, if_true]
    generalize hY : GetObjectPartsSize.page L imur p _ = Y
    have hYw : Y.w.remote.parts = (pre ++ [last]).map .ok ++ rest := by
      rw [← hY]; simp [page_w, Env.record]
    have hYs : int64 Y.totalPartSize = Y.totalPartSize := by
      rw [← hY, page_size]
      · exact int64_idem _
      · exact hs
    obtain ⟨h1, h2, h3, h4, h5⟩ := ih (fun q hq => hpre q (by simp [hq])) n k Y hYw
      (by simp at hfuel; omega) hYs
    refine ⟨?_, ?_, ?_, ?_, ?_⟩
    · rw [h1, ← hY, page_count, page_size]
      · simp only [countOfPages, sizeOfPages, List.cons_append, List.map_cons, List.sum_cons,
          int64_add_left, add_assoc]
      · exact hs
    · rw [h2, ← hY]; simp [page_w, Env.record]
    · rw [h3, ← hY]; simp [page_ap]
    · rw [h4, ← hY]; simp [page_ap]
    · rw [h5, ← hY]; simp [page_ap]

/-! ## C1: totals of one upload -/

/-- C1: for every upload reference and every sequence of successful `ListUploadedParts`
pages `pre ++ [last]` in which the pages of `pre` are truncated with a next-part-number
marker that `Atoi` parses and `last` is not truncated, `GetObjectPartsSize` returns
`(count, size, nil)`: `count` is the number of parts on all the pages and `size` the sum of
their sizes, provided both fit in an `int64`.  The iteration bound only has to reach the
number of pages. -/
theorem C1_GetObjectPartsSize_totals (L : Lib) (bucket : OssBucket) (statInfo : StatPartInfo)
    (ap : allPartSizeOptionType) (w : Env Script)
    (pre : List ListUploadedPartsResult) (last : ListUploadedPartsResult)
    (rest : List (Except GoError ListUploadedPartsResult)) (fuel : Nat)
    (hpre : ∀ p ∈ pre, p.IsTruncated = true ∧ ∃ n, L.Atoi p.NextPartNumberMarker = .ok n)
    (hlast : last.IsTruncated = false)
    (hscript : w.remote.parts = (pre ++ [last]).map .ok ++ rest)
    (hfuel : pre.length + 1 ≤ fuel)
    (hcount : InInt64 (countOfPages (pre ++ [last])))
    (hsize : InInt64 (sizeOfPages (pre ++ [last]))) :
    (GetObjectPartsSize L scripted fuel bucket statInfo ap w).1
      = .returned (countOfPages (pre ++ [last]), sizeOfPages (pre ++ [last]), none) := by
  have h := (GOPS_loop_scripted L bucket
    { Bucket := ap.bucketName, Key := statInfo.objectName, UploadID := statInfo.uploadId }
    last hlast rest pre hpre fuel 0 ⟨0, 0, ⟨"", ""⟩, ap, w⟩ hscript hfuel rfl).1
  simp only [zero_add, int64_of_inInt64 hcount, int64_of_inInt64 hsize] at h
  exact h

/-- C1 at the two example pages: three parts, 157 bytes. -/
theorem C1_GetObjectPartsSize_totals_witness :
    (GetObjectPartsSize exampleLib scripted 2 ⟨1⟩ ⟨"k1", "u1"⟩ exampleCommand.apOption
        (scriptedEnv exampleScript)).1
      = .returned (3, 157, none) :=
  C1_GetObjectPartsSize_totals exampleLib ⟨1⟩ ⟨"k1", "u1"⟩ exampleCommand.apOption
    (scriptedEnv exampleScript) [examplePage1] examplePage2 [.ok examplePage2] 2
    (by intro p hp
        rw [List.mem_singleton] at hp
        subst hp
        exact ⟨rfl, 2, by decide⟩)
    rfl rfl (by decide) (by decide) (by decide)

/-! ## C2: the uploads listed -/

theorem statList_foldl (uploads : List UncompletedUpload) :
    ∀ l : List StatPartInfo,
      uploads.foldl (fun l v => l ++ [(⟨v.Key, v.UploadID⟩ : StatPartInfo)]) l
        = l ++ uploads.map refOfUpload := by
  induction uploads with
  | nil => intro l; simp
  | cons v rest ih => intro l; simp [ih, refOfUpload]

theorem scripted_uploads (b : OssBucket) (o : List OssOption)
    (s : Script) (r : Except GoError ListMultipartUploadResult)
    (rest : List (Except GoError ListMultipartUploadResult)) (h : s.uploads = r :: rest) :
    scripted.ListMultipartUploads b o s = (r, { s with uploads := rest }) := by
  simp [scripted, h]

theorem GASI_loop_scripted (bucket : OssBucket)
    (last : ListMultipartUploadResult) (hlast : last.IsTruncated = false)
    (rest : List (Except GoError ListMultipartUploadResult)) :
    ∀ (pre : List ListMultipartUploadResult), (∀ p ∈ pre, p.IsTruncated = true) →
    ∀ (fuel : Nat) (km um : String) (ap : allPartSizeOptionType) (w : Env Script),
      w.remote.uploads = (pre ++ [last]).map .ok ++ rest → pre.length + 1 ≤ fuel →
      (GetAllStatInfo.loop scripted bucket fuel km um ap w).1 = .returned none
      ∧ (GetAllStatInfo.loop scripted bucket fuel km um ap w).2.1
          = { ap with statList := ap.statList ++ refsOfPages (pre ++ [last]) }
      ∧ (GetAllStatInfo.loop scripted bucket fuel km um ap w).2.2.remote
          = { w.remote with uploads := rest }
      ∧ (GetAllStatInfo.loop scripted bucket fuel km um ap w).2.2.stdout = w.stdout := by
  intro pre
  induction pre with
  | nil =>
    intro _ fuel km um ap w hw hfuel
    obtain ⟨n, rfl⟩ : ∃ n, fuel = n + 1 := ⟨fuel - 1, by omega⟩
    have hw1 : w.remote.uploads = .ok last :: rest := by simpa using hw
    simp only [GetAllStatInfo.loop, scripted_uploads _ _ _ _ _ hw1, hlast]
    simp [statList_foldl, refsOfPages, Env.record]
  | cons p pre ih =>
    intro hpre fuel km um ap w hw hfuel
    obtain ⟨n, rfl⟩ : ∃ n, fuel = n + 1 := ⟨fuel - 1, by simp at hfuel; omega⟩
    have hw1 : w.remote.uploads = .ok p :: ((pre ++ [last]).map .ok ++ rest) := by simpa using hw
    have hpt := hpre p (by simp)
    simp only [GetAllStatInfo.loop, scripted_uploads _ _ _ _ _ hw1, hpt, if_true]
    generalize hY : Env.record w _ _ = Y
    have hYw : Y.remote.uploads = (pre ++ [last]).map .ok ++ rest := by
      rw [← hY]; simp [Env.record]
    obtain ⟨h1, h2, h3, h4⟩ := ih (fun q hq => hpre q (by simp [hq])) n p.NextKeyMarker
      p.NextUploadIDMarker _ Y hYw (by simp at hfuel; omega)
    refine ⟨h1, ?_, ?_, ?_⟩
    · rw [h2]; simp [statList_foldl, refsOfPages]
    · rw [h3, ← hY]; simp [Env.record]
    · rw [h4, ← hY]; simp [Env.record]

theorem scripted_ossClient (n : String) (s : Script) (r : Except GoError OssClient)
    (rest : List (Except GoError OssClient)) (h : s.clients = r :: rest) :
    scripted.ossClient n s = (r, { s with clients := rest }) := by
  simp [scripted, h]

theorem scripted_Bucket (c : OssClient) (n : String) (s : Script) (r : Except GoError OssBucket)
    (rest : List (Except GoError OssBucket)) (h : s.buckets = r :: rest) :
    scripted.Bucket c n s = (r, { s with buckets := rest }) := by
  simp [scripted, h]

theorem GASI_scripted (ap : allPartSizeOptionType) (w : Env Script)
    (c : OssClient) (cs : List (Except GoError OssClient))
    (b : OssBucket) (bs : List (Except GoError OssBucket))
    (pre : List ListMultipartUploadResult) (last : ListMultipartUploadResult)
    (rest : List (Except GoError ListMultipartUploadResult)) (fuel : Nat)
    (hclient : w.remote.clients = .ok c :: cs)
    (hbucket : w.remote.buckets = .ok b :: bs)
    (hpre : ∀ p ∈ pre, p.IsTruncated = true)
    (hlast : last.IsTruncated = false)
    (hscript : w.remote.uploads = (pre ++ [last]).map .ok ++ rest)
    (hfuel : pre.length + 1 ≤ fuel) :
    (GetAllStatInfo scripted fuel ap w).1 = .returned none
    ∧ (GetAllStatInfo scripted fuel ap w).2.1
        = { ap with statList := ap.statList ++ refsOfPages (pre ++ [last]) }
    ∧ (GetAllStatInfo scripted fuel ap w).2.2.remote
        = { w.remote with clients := cs, buckets := bs, uploads := rest }
    ∧ (GetAllStatInfo scripted fuel ap w).2.2.stdout = w.stdout := by
  have hb : ({ w.remote with clients := cs } : Script).buckets = .ok b :: bs := hbucket
  simp only [GetAllStatInfo, scripted_ossClient _ _ _ _ hclient, Env.record,
    scripted_Bucket _ _ _ _ _ hb]
  generalize hY : Env.mk _ _ _ = Y
  have hYw : Y.remote.uploads = (pre ++ [last]).map .ok ++ rest := by
    rw [← hY]; exact hscript
  obtain ⟨h1, h2, h3, h4⟩ := GASI_loop_scripted b last hlast rest pre hpre fuel "" "" ap Y hYw hfuel
  refine ⟨h1, h2, ?_, ?_⟩
  · rw [h3, ← hY]
  · rw [h4, ← hY]

/-- C2: for every sequence of successful `ListMultipartUploads` pages `pre ++ [last]` that
ends at the first page that is not truncated, `GetAllStatInfo` returns `nil` and leaves in
`statList` its previous contents followed by one `(Key, UploadID)` entry for every upload of
every page, in page order and in the order within each page; from an empty `statList` the
result is the list of all listed uploads. -/
theorem C2_GetAllStatInfo_enumerates (ap : allPartSizeOptionType) (w : Env Script)
    (c : OssClient) (cs : List (Except GoError OssClient))
    (b : OssBucket) (bs : List (Except GoError OssBucket))
    (pre : List ListMultipartUploadResult) (last : ListMultipartUploadResult)
    (rest : List (Except GoError ListMultipartUploadResult)) (fuel : Nat)
    (hclient : w.remote.clients = .ok c :: cs)
    (hbucket : w.remote.buckets = .ok b :: bs)
    (hpre : ∀ p ∈ pre, p.IsTruncated = true)
    (hlast : last.IsTruncated = false)
    (hscript : w.remote.uploads = (pre ++ [last]).map .ok ++ rest)
    (hfuel : pre.length + 1 ≤ fuel) :
    (GetAllStatInfo scripted fuel ap w).1 = .returned none
    ∧ (GetAllStatInfo scripted fuel ap w).2.1.statList
        = ap.statList ++ refsOfPages (pre ++ [last])
    ∧ (ap.statList = [] →
        (GetAllStatInfo scripted fuel ap w).2.1.statList = refsOfPages (pre ++ [last])) := by
  obtain ⟨h1, h2, _, _⟩ :=
    GASI_scripted ap w c cs b bs pre last rest fuel hclient hbucket hpre hlast hscript hfuel
  refine ⟨h1, by rw [h2], fun h0 => by rw [h2]; simp [h0]⟩

/-- C2 at the example script: two pages with one upload each, appended to one entry already
in `statList`. -/
theorem C2_GetAllStatInfo_enumerates_witness :
    (GetAllStatInfo scripted 2 { exampleCommand.apOption with statList := [⟨"k0", "u0"⟩] }
        (scriptedEnv exampleScript)).1 = .returned none
    ∧ (GetAllStatInfo scripted 2 { exampleCommand.apOption with statList := [⟨"k0", "u0"⟩] }
        (scriptedEnv exampleScript)).2.1.statList
        = [⟨"k0", "u0"⟩, ⟨"k1", "u1"⟩, ⟨"k2", "u2"⟩] :=
  have h := C2_GetAllStatInfo_enumerates
    { exampleCommand.apOption with statList := [⟨"k0", "u0"⟩] } (scriptedEnv exampleScript)
    ⟨1⟩ [.ok ⟨2⟩] ⟨1⟩ [.ok ⟨2⟩] [exampleUploads1] exampleUploads2 [] 2 rfl rfl
    (by intro p hp
        rw [List.mem_singleton] at hp
        subst hp
        rfl)
    rfl rfl (by decide)
  ⟨h.1, h.2.1⟩

/-! ## C5: the pagination loops stop -/

theorem GASI_loop_terminates (bucket : OssBucket)
    (up : ListMultipartUploadResult) (hup : up.IsTruncated = false)
    (urest : List (Except GoError ListMultipartUploadResult)) :
    ∀ (upre : List (Except GoError ListMultipartUploadResult))
      (fuel : Nat) (km um : String) (ap : allPartSizeOptionType) (w : Env Script),
      w.remote.uploads = upre ++ .ok up :: urest →
      (GetAllStatInfo.loop scripted bucket fuel km um ap w).2.2.calls.length
          ≤ w.calls.length + (upre.length + 1)
      ∧ (upre.length + 1 ≤ fuel →
          ∃ r, (GetAllStatInfo.loop scripted bucket fuel km um ap w).1 = .returned r) := by
  intro upre
  induction upre with
  | nil =>
    intro fuel km um ap w hw
    cases fuel with
    | zero => simp [GetAllStatInfo.loop]
    | succ n =>
      have hw1 : w.remote.uploads = .ok up :: urest := by simpa using hw
      simp [GetAllStatInfo.loop, scripted_uploads _ _ _ _ _ hw1, hup, Env.record]
  | cons q upre ih =>
    intro fuel km um ap w hw
    cases fuel with
    | zero => simp [GetAllStatInfo.loop]
    | succ n =>
      have hw1 : w.remote.uploads = q :: (upre ++ .ok up :: urest) := by simpa using hw
      simp only [GetAllStatInfo.loop, scripted_uploads _ _ _ _ _ hw1]
      cases q with
      | error e => simp [Env.record]
      | ok p =>
        by_cases hp : p.IsTruncated = true
        case neg => simp [hp, Env.record]
        case pos =>
          simp only [hp, if_true]
          generalize hY : Env.record w _ _ = Y
          have hYw : Y.remote.uploads = upre ++ .ok up :: urest := by
            rw [← hY]; simp [Env.record]
          have hYc : Y.calls.length = w.calls.length + 1 := by
            rw [← hY]; simp [Env.record]
          obtain ⟨h1, h2⟩ := ih n p.NextKeyMarker p.NextUploadIDMarker
            { ap with statList :=
                p.Uploads.foldl (fun l v => l ++ [(⟨v.Key, v.UploadID⟩ : StatPartInfo)]) ap.statList }
            Y hYw
          refine ⟨?_, fun hf => h2 (by simp at hf; omega)⟩
          simp only [List.length_cons]
          omega

theorem GOPS_loop_terminates (L : Lib) (bucket : OssBucket) (imur : InitiateMultipartUploadResult)
    (pp : ListUploadedPartsResult) (hpp : pp.IsTruncated = false)
    (prest : List (Except GoError ListUploadedPartsResult)) :
    ∀ (ppre : List (Except GoError ListUploadedPartsResult))
      (fuel : Nat) (m : Int) (x : GetObjectPartsSize.Vars Script),
      x.w.remote.parts = ppre ++ .ok pp :: prest →
      (GetObjectPartsSize.loop L scripted bucket imur fuel m x).2.2.calls.length
          ≤ x.w.calls.length + (ppre.length + 1)
      ∧ (ppre.length + 1 ≤ fuel →
          ∃ r, (GetObjectPartsSize.loop L scripted bucket imur fuel m x).1 = .returned r) := by
  intro ppre
  induction ppre with
  | nil =>
    intro fuel m x hw
    cases fuel with
    | zero => simp [GetObjectPartsSize.loop]
    | succ n =>
      have hw1 : x.w.remote.parts = .ok pp :: prest := by simpa using hw
      simp [GetObjectPartsSize.loop, scripted_parts _ _ _ _ _ _ hw1, hpp, page_w, Env.record]
  | cons q ppre ih =>
    intro fuel m x hw
    cases fuel with
    | zero => simp [GetObjectPartsSize.loop]
    | succ n =>
      have hw1 : x.w.remote.parts = q :: (ppre ++ .ok pp :: prest) := by simpa using hw
      simp only [GetObjectPartsSize.loop, scripted_parts _ _ _ _ _ _ hw1]
      cases q with
      | error e => simp [Env.record]
      | ok p =>
        by_cases hp : p.IsTruncated = true
        case neg => simp [hp, page_w, Env.record]
        case pos =>
          simp only [hp, if_true]
          cases hk : L.Atoi p.NextPartNumberMarker with
          | error e => simp [page_w, Env.record]
          | ok k =>
            simp only []
            generalize hY : GetObjectPartsSize.page L imur p _ = Y
            have hYw : Y.w.remote.parts = ppre ++ .ok pp :: prest := by
              rw [← hY]; simp [page_w, Env.record]
            have hYc : Y.w.calls.length = x.w.calls.length + 1 := by
              rw [← hY]; simp [page_w, Env.record]
            obtain ⟨h1, h2⟩ := ih n k Y hYw
            refine ⟨?_, fun hf => h2 (by simp at hf; omega)⟩
            simp only [List.length_cons]
            omega

/-- C5: when the responses still to come contain a page that is not truncated (after `upre`,
respectively `ppre`, earlier responses of any kind), each of the two pagination loops
returns as soon as the iteration bound reaches the position of that page, and whatever the
bound it issues at most as many requests as that position: none after the first page that
is not truncated. -/
theorem C5_pagination_terminates (L : Lib) (bucket : OssBucket) (statInfo : StatPartInfo)
    (fuel : Nat) (km um : String) (ap : allPartSizeOptionType) (w : Env Script)
    (upre : List (Except GoError ListMultipartUploadResult)) (up : ListMultipartUploadResult)
    (urest : List (Except GoError ListMultipartUploadResult))
    (ppre : List (Except GoError ListUploadedPartsResult)) (pp : ListUploadedPartsResult)
    (prest : List (Except GoError ListUploadedPartsResult))
    (hu : w.remote.uploads = upre ++ .ok up :: urest) (hup : up.IsTruncated = false)
    (hp : w.remote.parts = ppre ++ .ok pp :: prest) (hpp : pp.IsTruncated = false) :
    ((GetAllStatInfo.loop scripted bucket fuel km um ap w).2.2.calls.length
        ≤ w.calls.length + (upre.length + 1)
      ∧ (upre.length + 1 ≤ fuel →
          ∃ r, (GetAllStatInfo.loop scripted bucket fuel km um ap w).1 = .returned r))
    ∧ ((GetObjectPartsSize L scripted fuel bucket statInfo ap w).2.2.calls.length
        ≤ w.calls.length + (ppre.length + 1)
      ∧ (ppre.length + 1 ≤ fuel →
          ∃ r, (GetObjectPartsSize L scripted fuel bucket statInfo ap w).1 = .returned r)) :=
  ⟨GASI_loop_terminates bucket up hup urest upre fuel km um ap w hu,
   GOPS_loop_terminates L bucket _ pp hpp prest ppre fuel 0 ⟨0, 0, ⟨"", ""⟩, ap, w⟩ hp⟩

/-- C5 at the example script, where the second page of each listing is the first that is not
truncated: both loops return with bound 2 and issue at most two requests. -/
theorem C5_pagination_terminates_witness :
    ((GetAllStatInfo.loop scripted ⟨1⟩ 2 "" "" exampleCommand.apOption
          (scriptedEnv exampleScript)).2.2.calls.length ≤ 0 + (1 + 1)
      ∧ (1 + 1 ≤ 2 →
          ∃ r, (GetAllStatInfo.loop scripted ⟨1⟩ 2 "" "" exampleCommand.apOption
            (scriptedEnv exampleScript)).1 = .returned r))
    ∧ ((GetObjectPartsSize exampleLib scripted 2 ⟨1⟩ ⟨"k1", "u1"⟩ exampleCommand.apOption
          (scriptedEnv exampleScript)).2.2.calls.length ≤ 0 + (1 + 1)
      ∧ (1 + 1 ≤ 2 →
          ∃ r, (GetObjectPartsSize exampleLib scripted 2 ⟨1⟩ ⟨"k1", "u1"⟩ exampleCommand.apOption
            (scriptedEnv exampleScript)).1 = .returned r)) :=
  C5_pagination_terminates exampleLib ⟨1⟩ ⟨"k1", "u1"⟩ 2 "" "" exampleCommand.apOption
    (scriptedEnv exampleScript) [.ok exampleUploads1] exampleUploads2 []
    [.ok examplePage1] examplePage2 [.ok examplePage2] rfl rfl rfl rfl

/-! ## C10: markers are chained -/

theorem GASI_loop_run {σ : Type} (R : Remote σ) (bucket : OssBucket) :
    ∀ (fuel : Nat) (km um : String) (ap : allPartSizeOptionType) (w : Env σ),
      ∃ new, (GetAllStatInfo.loop R bucket fuel km um ap w).2.2.calls = w.calls ++ new
        ∧ UploadsRun bucket (GetAllStatInfo.loop R bucket fuel km um ap w).1 km um new := by
  intro fuel
  induction fuel with
  | zero => intro km um ap w; exact ⟨[], by simp [GetAllStatInfo.loop, UploadsRun]⟩
  | succ n ih =>
    intro km um ap w
    simp only [GetAllStatInfo.loop]
    generalize hr : R.ListMultipartUploads bucket _ w.remote = r
    rcases r with ⟨res, remote1⟩
    cases res with
    | error e => exact ⟨[.ListMultipartUploads bucket [.MaxParts 1000, .KeyMarker km, .UploadIDMarker um] (.error e)], by simp [Env.record, UploadsRun]⟩
    | ok p =>
      by_cases hp : p.IsTruncated = true
      case neg => exact ⟨[.ListMultipartUploads bucket [.MaxParts 1000, .KeyMarker km, .UploadIDMarker um] (.ok p)], by simp [hp, Env.record, UploadsRun]⟩
      case pos =>
        simp only [hp, if_true]
        obtain ⟨new, h1, h2⟩ := ih p.NextKeyMarker p.NextUploadIDMarker
          { ap with statList :=
              p.Uploads.foldl (fun l v => l ++ [(⟨v.Key, v.UploadID⟩ : StatPartInfo)]) ap.statList }
          (w.record remote1 (.ListMultipartUploads bucket
            [.MaxParts 1000, .KeyMarker km, .UploadIDMarker um] (.ok p)))
        refine ⟨.ListMultipartUploads bucket [.MaxParts 1000, .KeyMarker km, .UploadIDMarker um] (.ok p) :: new, ?_, ?_⟩
        · rw [h1]; simp [Env.record]
        · simp [UploadsRun, hp, h2]

theorem GOPS_loop_run {σ : Type} (L : Lib) (R : Remote σ) (bucket : OssBucket)
    (imur : InitiateMultipartUploadResult) :
    ∀ (fuel : Nat) (m : Int) (x : GetObjectPartsSize.Vars σ),
      ∃ new, (GetObjectPartsSize.loop L R bucket imur fuel m x).2.2.calls = x.w.calls ++ new
        ∧ PartsRun L bucket imur (GetObjectPartsSize.loop L R bucket imur fuel m x).1 m new := by
  intro fuel
  induction fuel with
  | zero => intro m x; exact ⟨[], by simp [GetObjectPartsSize.loop, PartsRun]⟩
  | succ n ih =>
    intro m x
    simp only [GetObjectPartsSize.loop]
    generalize hr : R.ListUploadedParts bucket imur _ x.w.remote = r
    rcases r with ⟨res, remote1⟩
    cases res with
    | error e => exact ⟨[.ListUploadedParts bucket imur [.MaxParts 1000, .PartNumberMarker m] (.error e)], by simp [Env.record, PartsRun]⟩
    | ok p =>
      by_cases hp : p.IsTruncated = true
      case neg => exact ⟨[.ListUploadedParts bucket imur [.MaxParts 1000, .PartNumberMarker m] (.ok p)], by simp [hp, page_w, Env.record, PartsRun]⟩
      case pos =>
        simp only [hp, if_true]
        cases hk : L.Atoi p.NextPartNumberMarker with
        | error e => exact ⟨[.ListUploadedParts bucket imur [.MaxParts 1000, .PartNumberMarker m] (.ok p)], by simp [hp, hk, page_w, Env.record, PartsRun]⟩
        | ok k =>
          simp only []
          obtain ⟨new, h1, h2⟩ := ih k (GetObjectPartsSize.page L imur p
            { x with w := x.w.record remote1 (.ListUploadedParts bucket imur
                [.MaxParts 1000, .PartNumberMarker m] (.ok p)) })
          refine ⟨.ListUploadedParts bucket imur [.MaxParts 1000, .PartNumberMarker m] (.ok p) :: new, ?_, ?_⟩
          · rw [h1]; simp [page_w, Env.record]
          · simp [PartsRun, hp, hk, h2]

theorem UploadsRun_cons {bucket : OssBucket} {status : Status (Option GoError)}
    {km um : String} {c : SdkCall} {rest : List SdkCall}
    (h : UploadsRun bucket status km um (c :: rest)) :
    ∃ res, c = .ListMultipartUploads bucket
        [.MaxParts 1000, .KeyMarker km, .UploadIDMarker um] res
      ∧ ((∃ e, res = .error e ∧ rest = [] ∧ status = .returned (some e))
        ∨ (∃ p, res = .ok p ∧ p.IsTruncated = false ∧ rest = [] ∧ status = .returned none)
        ∨ (∃ p, res = .ok p ∧ p.IsTruncated = true
            ∧ UploadsRun bucket status p.NextKeyMarker p.NextUploadIDMarker rest)) := by
  cases c with
  | ListMultipartUploads b o res =>
    simp only [UploadsRun] at h
    obtain ⟨rfl, rfl, h3⟩ := h
    refine ⟨res, rfl, ?_⟩
    cases res with
    | error e => exact Or.inl ⟨e, rfl, h3⟩
    | ok p =>
      by_cases hp : p.IsTruncated = true
      · simp only [hp, if_true] at h3
        exact Or.inr (Or.inr ⟨p, rfl, hp, h3⟩)
      · simp only [hp] at h3
        exact Or.inr (Or.inl ⟨p, rfl, by simpa using hp, h3⟩)
  | ossClient _ _ => simp [UploadsRun] at h
  | Bucket _ _ _ => simp [UploadsRun] at h
  | ListUploadedParts _ _ _ _ => simp [UploadsRun] at h

theorem PartsRun_cons {L : Lib} {bucket : OssBucket} {imur : InitiateMultipartUploadResult}
    {status : Status (Int × Int × Option GoError)} {m : Int} {c : SdkCall} {rest : List SdkCall}
    (h : PartsRun L bucket imur status m (c :: rest)) :
    ∃ res, c = .ListUploadedParts bucket imur [.MaxParts 1000, .PartNumberMarker m] res
      ∧ ((∃ e, res = .error e ∧ rest = [] ∧ status = .returned (0, 0, some e))
        ∨ (∃ p, res = .ok p ∧ p.IsTruncated = false ∧ rest = []
            ∧ ∃ count size, status = .returned (count, size, none))
        ∨ (∃ p e, res = .ok p ∧ p.IsTruncated = true ∧ L.Atoi p.NextPartNumberMarker = .error e
            ∧ rest = [] ∧ status = .returned (0, 0, some e))
        ∨ (∃ p k, res = .ok p ∧ p.IsTruncated = true ∧ L.Atoi p.NextPartNumberMarker = .ok k
            ∧ PartsRun L bucket imur status k rest)) := by
  cases c with
  | ListUploadedParts b i o res =>
    simp only [PartsRun] at h
    obtain ⟨rfl, rfl, rfl, h3⟩ := h
    refine ⟨res, rfl, ?_⟩
    cases res with
    | error e => exact Or.inl ⟨e, rfl, h3⟩
    | ok p =>
      by_cases hp : p.IsTruncated = true
      · simp only [hp, if_true] at h3
        cases hk : L.Atoi p.NextPartNumberMarker with
        | error e =>
          rw [hk] at h3
          exact Or.inr (Or.inr (Or.inl ⟨p, e, rfl, hp, hk, h3⟩))
        | ok k =>
          rw [hk] at h3
          exact Or.inr (Or.inr (Or.inr ⟨p, k, rfl, hp, hk, h3⟩))
      · simp only [hp] at h3
        exact Or.inr (Or.inl ⟨p, rfl, by simpa using hp, h3⟩)
  | ossClient _ _ => simp [PartsRun] at h
  | Bucket _ _ _ => simp [PartsRun] at h
  | ListMultipartUploads _ _ _ => simp [PartsRun] at h

theorem UploadsRun_next {bucket : OssBucket} {status : Status (Option GoError)} :
    ∀ (pre : List SdkCall) (km um : String) (b : OssBucket) (o : List OssOption)
      (p : ListMultipartUploadResult) (c : SdkCall) (post : List SdkCall),
      UploadsRun bucket status km um (pre ++ .ListMultipartUploads b o (.ok p) :: c :: post) →
      b = bucket ∧ p.IsTruncated = true ∧ ∃ res, c = .ListMultipartUploads bucket
        [.MaxParts 1000, .KeyMarker p.NextKeyMarker, .UploadIDMarker p.NextUploadIDMarker] res := by
  intro pre
  induction pre with
  | nil =>
    intro km um b o p c post h
    obtain ⟨res, h1, h2⟩ := UploadsRun_cons h
    injection h1 with hb _ hres
    subst hres
    rcases h2 with ⟨e, he, _⟩ | ⟨q, _, _, hnil, _⟩ | ⟨q, hq, hqt, hrun⟩
    · cases he
    · cases hnil
    · injection hq with hq
      subst hq
      obtain ⟨res2, h3, _⟩ := UploadsRun_cons hrun
      exact ⟨hb, hqt, res2, h3⟩
  | cons d pre ih =>
    intro km um b o p c post h
    obtain ⟨res, _, h2⟩ := UploadsRun_cons h
    rcases h2 with ⟨e, _, hnil, _⟩ | ⟨q, _, _, hnil, _⟩ | ⟨q, _, _, hrun⟩
    · simp at hnil
    · simp at hnil
    · exact ih _ _ b o p c post hrun

theorem PartsRun_next {L : Lib} {bucket : OssBucket} {imur : InitiateMultipartUploadResult}
    {status : Status (Int × Int × Option GoError)} :
    ∀ (pre : List SdkCall) (m : Int) (b : OssBucket) (i : InitiateMultipartUploadResult)
      (o : List OssOption) (p : ListUploadedPartsResult) (c : SdkCall) (post : List SdkCall),
      PartsRun L bucket imur status m (pre ++ .ListUploadedParts b i o (.ok p) :: c :: post) →
      p.IsTruncated = true ∧ ∃ k res, L.Atoi p.NextPartNumberMarker = .ok k
        ∧ c = .ListUploadedParts bucket imur [.MaxParts 1000, .PartNumberMarker k] res := by
  intro pre
  induction pre with
  | nil =>
    intro m b i o p c post h
    obtain ⟨res, h1, h2⟩ := PartsRun_cons h
    injection h1 with _ _ _ hres
    subst hres
    rcases h2 with ⟨e, he, _⟩ | ⟨q, _, _, hnil, _⟩ | ⟨q, e, _, _, _, hnil, _⟩ | ⟨q, k, hq, hqt, hk, hrun⟩
    · cases he
    · cases hnil
    · cases hnil
    · injection hq with hq
      subst hq
      obtain ⟨res2, h3, _⟩ := PartsRun_cons hrun
      exact ⟨hqt, k, res2, hk, h3⟩
  | cons d pre ih =>
    intro m b i o p c post h
    obtain ⟨res, _, h2⟩ := PartsRun_cons h
    rcases h2 with ⟨e, _, hnil, _⟩ | ⟨q, _, _, hnil, _⟩ | ⟨q, e, _, _, _, hnil, _⟩ | ⟨q, k, _, _, _, hrun⟩
    · simp at hnil
    · simp at hnil
    · simp at hnil
    · exact ih _ b i o p c post hrun

theorem PartsRun_atoi {L : Lib} {bucket : OssBucket} {imur : InitiateMultipartUploadResult}
    {status : Status (Int × Int × Option GoError)} :
    ∀ (pre : List SdkCall) (m : Int) (b : OssBucket) (i : InitiateMultipartUploadResult)
      (o : List OssOption) (p : ListUploadedPartsResult) (post : List SdkCall) (e : GoError),
      PartsRun L bucket imur status m (pre ++ .ListUploadedParts b i o (.ok p) :: post) →
      p.IsTruncated = true → L.Atoi p.NextPartNumberMarker = .error e →
      post = [] ∧ status = .returned (0, 0, some e) := by
  intro pre
  induction pre with
  | nil =>
    intro m b i o p post e h hpt hpe
    obtain ⟨res, h1, h2⟩ := PartsRun_cons h
    injection h1 with _ _ _ hres
    subst hres
    rcases h2 with ⟨e1, he, _⟩ | ⟨q, hq, hqt, _⟩ | ⟨q, e1, hq, _, hqe, hnil, hst⟩ | ⟨q, k, hq, _, hk, _⟩
    · cases he
    · injection hq with hq
      subst hq
      rw [hpt] at hqt
      cases hqt
    · injection hq with hq
      subst hq
      rw [hpe] at hqe
      injection hqe with hqe
      subst hqe
      exact ⟨hnil, hst⟩
    · injection hq with hq
      subst hq
      rw [hpe] at hk
      cases hk
  | cons d pre ih =>
    intro m b i o p post e h hpt hpe
    obtain ⟨res, _, h2⟩ := PartsRun_cons h
    rcases h2 with ⟨e, _, hnil, _⟩ | ⟨q, _, _, hnil, _⟩ | ⟨q, e, _, _, _, hnil, _⟩ | ⟨q, k, _, _, _, hrun⟩
    · simp at hnil
    · simp at hnil
    · simp at hnil
    · exact ih _ b i o p post e hrun hpt hpe

theorem GASI_run {σ : Type} (R : Remote σ) (fuel : Nat) (ap : allPartSizeOptionType)
    (w : Env σ) :
    ∃ new, (GetAllStatInfo R fuel ap w).2.2.calls = w.calls ++ new
      ∧ ((∃ e, new = [.ossClient ap.bucketName (.error e)]
            ∧ (GetAllStatInfo R fuel ap w).1 = .returned (some e))
        ∨ (∃ c e, new = [.ossClient ap.bucketName (.ok c), .Bucket c ap.bucketName (.error e)]
            ∧ (GetAllStatInfo R fuel ap w).1 = .returned (some e))
        ∨ (∃ c b tail,
            new = .ossClient ap.bucketName (.ok c) :: .Bucket c ap.bucketName (.ok b) :: tail
            ∧ UploadsRun b (GetAllStatInfo R fuel ap w).1 "" "" tail)) := by
  simp only [GetAllStatInfo]
  generalize hr : R.ossClient ap.bucketName w.remote = r
  rcases r with ⟨res, remote1⟩
  cases res with
  | error e =>
    exact ⟨[.ossClient ap.bucketName (.error e)], by simp [Env.record]⟩
  | ok c =>
    simp only []
    generalize hr2 : R.Bucket c ap.bucketName _ = r2
    rcases r2 with ⟨res2, remote2⟩
    cases res2 with
    | error e =>
      exact ⟨[.ossClient ap.bucketName (.ok c), .Bucket c ap.bucketName (.error e)],
        by simp [Env.record]⟩
    | ok b =>
      simp only []
      obtain ⟨tail, h1, h2⟩ := GASI_loop_run R b fuel "" "" ap
        ((w.record remote1 (.ossClient ap.bucketName (.ok c))).record remote2
          (.Bucket c ap.bucketName (.ok b)))
      refine ⟨.ossClient ap.bucketName (.ok c) :: .Bucket c ap.bucketName (.ok b) :: tail, ?_,
        Or.inr (Or.inr ⟨c, b, tail, rfl, h2⟩)⟩
      rw [h1]; simp [Env.record]

/-- C10: the pagination markers are chained from page to page.  In the calls `GetAllStatInfo`
makes, the first listing request (the third call, after the client and the bucket handle
were obtained) carries an empty key marker and an empty upload-id marker, and a listing
request that follows a page carries the `NextKeyMarker` and `NextUploadIDMarker` of that
page, which was truncated.  In the calls `GetObjectPartsSize` makes, the first request
carries part-number marker 0, a request that follows a page carries the integer `Atoi`
reads from the `NextPartNumberMarker` of that page, and when `Atoi` rejects the marker of a
truncated page that page is the last call and the function returns `(0, 0, err)`. -/
theorem C10_markers_chained {σ : Type} (L : Lib) (R : Remote σ) (fuel : Nat)
    (bucket : OssBucket) (statInfo : StatPartInfo) (ap : allPartSizeOptionType) (w : Env σ) :
    (∃ new, (GetAllStatInfo R fuel ap w).2.2.calls = w.calls ++ new
      ∧ (∀ c1 c2 c3 post, new = c1 :: c2 :: c3 :: post →
          ∃ b res, c3 = .ListMultipartUploads b
            [.MaxParts 1000, .KeyMarker "", .UploadIDMarker ""] res)
      ∧ (∀ pre b o p c post, new = pre ++ .ListMultipartUploads b o (.ok p) :: c :: post →
          p.IsTruncated = true ∧ ∃ res, c = .ListMultipartUploads b
            [.MaxParts 1000, .KeyMarker p.NextKeyMarker, .UploadIDMarker p.NextUploadIDMarker]
            res))
    ∧ (∃ new, (GetObjectPartsSize L R fuel bucket statInfo ap w).2.2.calls = w.calls ++ new
      ∧ (∀ c post, new = c :: post →
          ∃ res, c = .ListUploadedParts bucket
            ⟨ap.bucketName, statInfo.objectName, statInfo.uploadId⟩
            [.MaxParts 1000, .PartNumberMarker 0] res)
      ∧ (∀ pre b i o p c post, new = pre ++ .ListUploadedParts b i o (.ok p) :: c :: post →
          p.IsTruncated = true ∧ ∃ k res, L.Atoi p.NextPartNumberMarker = .ok k
            ∧ c = .ListUploadedParts bucket
                ⟨ap.bucketName, statInfo.objectName, statInfo.uploadId⟩
                [.MaxParts 1000, .PartNumberMarker k] res)
      ∧ (∀ pre b i o p post e, new = pre ++ .ListUploadedParts b i o (.ok p) :: post →
          p.IsTruncated = true → L.Atoi p.NextPartNumberMarker = .error e →
          post = []
          ∧ (GetObjectPartsSize L R fuel bucket statInfo ap w).1 = .returned (0, 0, some e))) := by
  constructor
  · obtain ⟨new, h1, h2⟩ := GASI_run R fuel ap w
    refine ⟨new, h1, ?_, ?_⟩
    · intro c1 c2 c3 post hnew
      rcases h2 with ⟨e, he, _⟩ | ⟨c, e, he, _⟩ | ⟨c, b, tail, ht, hrun⟩
      · rw [he] at hnew; simp at hnew
      · rw [he] at hnew; simp at hnew
      · rw [ht] at hnew
        injection hnew with _ hnew
        injection hnew with _ hnew
        subst hnew
        obtain ⟨res, h3, _⟩ := UploadsRun_cons hrun
        exact ⟨b, res, h3⟩
    · intro pre b o p c post hnew
      rcases h2 with ⟨e, he, _⟩ | ⟨c0, e, he, _⟩ | ⟨c0, b0, tail, ht, hrun⟩
      · rw [he] at hnew
        have := congrArg List.length hnew
        simp at this
        omega
      · rw [he] at hnew
        rcases pre with _ | ⟨x, pre⟩
        · simp at hnew
        · have := congrArg List.length hnew
          simp at this
          omega
      · rw [ht] at hnew
        rcases pre with _ | ⟨x, _ | ⟨y, pre⟩⟩
        · simp at hnew
        · simp at hnew
        · simp only [List.cons_append, List.cons.injEq] at hnew
          obtain ⟨_, _, htail⟩ := hnew
          subst htail
          obtain ⟨hb, hpt, res, hc⟩ := UploadsRun_next pre "" "" b o p c post hrun
          subst hb
          exact ⟨hpt, res, hc⟩
  · obtain ⟨new, h1, h2⟩ := GOPS_loop_run L R bucket
      ⟨ap.bucketName, statInfo.objectName, statInfo.uploadId⟩ fuel 0 ⟨0, 0, ⟨"", ""⟩, ap, w⟩
    refine ⟨new, h1, ?_, ?_, ?_⟩
    · intro c post hnew
      subst hnew
      obtain ⟨res, h3, _⟩ := PartsRun_cons h2
      exact ⟨res, h3⟩
    · intro pre b i o p c post hnew
      subst hnew
      exact PartsRun_next pre 0 b i o p c post h2
    · intro pre b i o p post e hnew hpt hpe
      subst hnew
      exact PartsRun_atoi pre 0 b i o p post e h2 hpt hpe

/-- The calls `GetObjectPartsSize` makes on the example script: marker 0, then the marker `2`
of the first page. -/
theorem markers_example :
    (GetObjectPartsSize exampleLib scripted 5 ⟨1⟩ ⟨"k1", "u1"⟩ exampleCommand.apOption
        (scriptedEnv exampleScript)).2.2.calls
      = [.ListUploadedParts ⟨1⟩ ⟨"", "k1", "u1"⟩ [.MaxParts 1000, .PartNumberMarker 0]
           (.ok examplePage1),
         .ListUploadedParts ⟨1⟩ ⟨"", "k1", "u1"⟩ [.MaxParts 1000, .PartNumberMarker 2]
           (.ok examplePage2)] := by
  decide

/-! ## Calls and output of a run, for any environment -/

theorem FailsLast_nil (P : GoError → Prop) : FailsLast [] P := by
  intro pre c post e h
  simp at h

theorem FailsLast_cons {c : SdkCall} {calls : List SdkCall} {P : GoError → Prop}
    (hc : c.failure = none) (h : FailsLast calls P) : FailsLast (c :: calls) P := by
  intro pre d post e hsplit hd
  rcases pre with _ | ⟨x, pre⟩
  · simp only [List.nil_append, List.cons.injEq] at hsplit
    rw [← hsplit.1, hc] at hd
    cases hd
  · simp only [List.cons_append, List.cons.injEq] at hsplit
    exact h pre d post e hsplit.2 hd

theorem FailsLast_single {c : SdkCall} {P : GoError → Prop}
    (h : ∀ e, c.failure = some e → P e) : FailsLast [c] P := by
  intro pre d post e hsplit hd
  rcases pre with _ | ⟨x, pre⟩
  · simp only [List.nil_append, List.cons.injEq] at hsplit
    obtain ⟨rfl, hpost⟩ := hsplit
    exact ⟨hpost.symm, h e hd⟩
  · have := congrArg List.length hsplit
    simp at this

theorem FailsLast_append {l1 l2 : List SdkCall} {P : GoError → Prop}
    (h1 : ∀ c ∈ l1, c.failure = none) (h2 : FailsLast l2 P) : FailsLast (l1 ++ l2) P := by
  induction l1 with
  | nil => simpa using h2
  | cons c l1 ih =>
    exact FailsLast_cons (h1 c (by simp)) (ih (fun d hd => h1 d (by simp [hd])))

theorem FailsLast_clean {calls : List SdkCall} {P : GoError → Prop}
    (h : FailsLast calls P) (hP : ∀ e, ¬ P e) : ∀ c ∈ calls, c.failure = none := by
  intro c hc
  obtain ⟨pre, post, hsplit⟩ := List.append_of_mem hc
  cases hf : c.failure with
  | none => rfl
  | some e => exact absurd (h pre c post e hsplit hf).2 (hP e)

theorem FailsLast_mono {calls : List SdkCall} {P Q : GoError → Prop}
    (hPQ : ∀ e, P e → Q e) (h : FailsLast calls P) : FailsLast calls Q := by
  intro pre c post e hsplit hc
  exact ⟨(h pre c post e hsplit hc).1, hPQ e (h pre c post e hsplit hc).2⟩

theorem PartsRun_failsLast {L : Lib} {bucket : OssBucket} {imur : InitiateMultipartUploadResult}
    {status : Status (Int × Int × Option GoError)} :
    ∀ (calls : List SdkCall) (m : Int), PartsRun L bucket imur status m calls →
      FailsLast calls (fun e => status = .returned (0, 0, some e)) := by
  intro calls
  induction calls with
  | nil => intro m _; exact FailsLast_nil _
  | cons c rest ih =>
    intro m h
    obtain ⟨res, hc, h2⟩ := PartsRun_cons h
    subst hc
    rcases h2 with ⟨e, rfl, rfl, hst⟩ | ⟨p, rfl, _, rfl, _⟩ | ⟨p, e, rfl, _, _, rfl, _⟩
      | ⟨p, k, rfl, _, _, hrun⟩
    · exact FailsLast_single (fun e1 he1 => by
        simp only [SdkCall.failure, errOf, Option.some.injEq] at he1
        rw [← he1]; exact hst)
    · exact FailsLast_single (fun e1 he1 => by simp [SdkCall.failure, errOf] at he1)
    · exact FailsLast_single (fun e1 he1 => by simp [SdkCall.failure, errOf] at he1)
    · exact FailsLast_cons (by simp [SdkCall.failure, errOf]) (ih k hrun)

theorem UploadsRun_failsLast {bucket : OssBucket} {status : Status (Option GoError)} :
    ∀ (calls : List SdkCall) (km um : String), UploadsRun bucket status km um calls →
      FailsLast calls (fun e => status = .returned (some e)) := by
  intro calls
  induction calls with
  | nil => intro km um _; exact FailsLast_nil _
  | cons c rest ih =>
    intro km um h
    obtain ⟨res, hc, h2⟩ := UploadsRun_cons h
    subst hc
    rcases h2 with ⟨e, rfl, rfl, hst⟩ | ⟨p, rfl, _, rfl, _⟩ | ⟨p, rfl, _, hrun⟩
    · exact FailsLast_single (fun e1 he1 => by
        simp only [SdkCall.failure, errOf, Option.some.injEq] at he1
        rw [← he1]; exact hst)
    · exact FailsLast_single (fun e1 he1 => by simp [SdkCall.failure, errOf] at he1)
    · exact FailsLast_cons (by simp [SdkCall.failure, errOf]) (ih _ _ hrun)

theorem GASI_failsLast {σ : Type} (R : Remote σ) (fuel : Nat) (ap : allPartSizeOptionType)
    (w : Env σ) :
    ∃ new, (GetAllStatInfo R fuel ap w).2.2.calls = w.calls ++ new
      ∧ FailsLast new (fun e => (GetAllStatInfo R fuel ap w).1 = .returned (some e)) := by
  obtain ⟨new, h1, h2⟩ := GASI_run R fuel ap w
  refine ⟨new, h1, ?_⟩
  rcases h2 with ⟨e, rfl, hst⟩ | ⟨c, e, rfl, hst⟩ | ⟨c, b, tail, rfl, hrun⟩
  · exact FailsLast_single (fun e1 he1 => by
      simp only [SdkCall.failure, errOf, Option.some.injEq] at he1
      rw [← he1]; exact hst)
  · exact FailsLast_cons (by simp [SdkCall.failure, errOf]) (FailsLast_single (fun e1 he1 => by
      simp only [SdkCall.failure, errOf, Option.some.injEq] at he1
      rw [← he1]; exact hst))
  · exact FailsLast_cons (by simp [SdkCall.failure, errOf])
      (FailsLast_cons (by simp [SdkCall.failure, errOf]) (UploadsRun_failsLast tail _ _ hrun))

theorem partLine_congr (L : Lib) (ap1 ap2 : allPartSizeOptionType)
    (imur : InitiateMultipartUploadResult)
    (hb : ap1.bucketName = ap2.bucketName) (he : ap1.encodingType = ap2.encodingType) :
    partLine L ap1 imur = partLine L ap2 imur := by
  funext v
  simp [partLine, objectPath, hb, he]

theorem mem_pageLines {L : Lib} {ap : allPartSizeOptionType}
    {imur : InitiateMultipartUploadResult} {pg : ListUploadedPartsResult} {p : Printf}
    (h : p ∈ pageLines L ap imur pg) : p = headLine ∨ ∃ v, p = partLine L ap imur v := by
  simp only [pageLines, List.mem_append, List.mem_map] at h
  rcases h with h | ⟨v, _, hv⟩
  · left
    split at h
    · simpa using h
    · simp at h
  · exact Or.inr ⟨v, hv.symm⟩

theorem GOPS_loop_stdout {σ : Type} (L : Lib) (R : Remote σ) (bucket : OssBucket)
    (imur : InitiateMultipartUploadResult) :
    ∀ (fuel : Nat) (m : Int) (x : GetObjectPartsSize.Vars σ),
      (∃ out, (GetObjectPartsSize.loop L R bucket imur fuel m x).2.2.stdout = x.w.stdout ++ out
        ∧ ∀ p ∈ out, p = headLine ∨ ∃ v, p = partLine L x.ap imur v)
      ∧ (GetObjectPartsSize.loop L R bucket imur fuel m x).2.1.bucketName = x.ap.bucketName
      ∧ (GetObjectPartsSize.loop L R bucket imur fuel m x).2.1.encodingType = x.ap.encodingType
      ∧ (GetObjectPartsSize.loop L R bucket imur fuel m x).2.1.statList = x.ap.statList := by
  intro fuel
  induction fuel with
  | zero => intro m x; exact ⟨⟨[], by simp [GetObjectPartsSize.loop]⟩, rfl, rfl, rfl⟩
  | succ n ih =>
    intro m x
    simp only [GetObjectPartsSize.loop]
    generalize hr : R.ListUploadedParts bucket imur _ x.w.remote = r
    rcases r with ⟨res, remote1⟩
    cases res with
    | error e => exact ⟨⟨[], by simp [Env.record]⟩, rfl, rfl, rfl⟩
    | ok pg =>
      have hlast : ∀ q ∈ pageLines L x.ap imur pg, q = headLine ∨ ∃ v, q = partLine L x.ap imur v :=
        fun q hq => mem_pageLines hq
      by_cases hp : pg.IsTruncated = true
      case neg =>
        exact ⟨⟨pageLines L x.ap imur pg, by simp [hp, page_w, Env.record], hlast⟩,
          by simp [hp, page_ap], by simp [hp, page_ap], by simp [hp, page_ap]⟩
      case pos =>
        simp only [hp, if_true]
        cases hk : L.Atoi pg.NextPartNumberMarker with
        | error e =>
          exact ⟨⟨pageLines L x.ap imur pg, by simp [page_w, Env.record], hlast⟩,
            by simp [page_ap], by simp [page_ap], by simp [page_ap]⟩
        | ok k =>
          simp only []
          generalize hY : GetObjectPartsSize.page L imur pg _ = Y
          have hYb : Y.ap.bucketName = x.ap.bucketName := by rw [← hY]; simp [page_ap]
          have hYe : Y.ap.encodingType = x.ap.encodingType := by rw [← hY]; simp [page_ap]
          have hYs : Y.ap.statList = x.ap.statList := by rw [← hY]; simp [page_ap]
          have hYo : Y.w.stdout = x.w.stdout ++ pageLines L x.ap imur pg := by
            rw [← hY]; simp [page_w, Env.record]
          obtain ⟨⟨out, h1, h2⟩, h3, h4, h5⟩ := ih k Y
          refine ⟨⟨pageLines L x.ap imur pg ++ out, ?_, ?_⟩, by rw [h3, hYb], by rw [h4, hYe],
            by rw [h5, hYs]⟩
          · rw [h1, hYo, List.append_assoc]
          · intro q hq
            rcases List.mem_append.1 hq with hq | hq
            · exact hlast q hq
            · rw [← partLine_congr L Y.ap x.ap imur hYb hYe]
              exact h2 q hq

theorem GASI_loop_stdout {σ : Type} (R : Remote σ) (bucket : OssBucket) :
    ∀ (fuel : Nat) (km um : String) (ap : allPartSizeOptionType) (w : Env σ),
      (GetAllStatInfo.loop R bucket fuel km um ap w).2.2.stdout = w.stdout
      ∧ (GetAllStatInfo.loop R bucket fuel km um ap w).2.1.bucketName = ap.bucketName
      ∧ (GetAllStatInfo.loop R bucket fuel km um ap w).2.1.encodingType = ap.encodingType
      ∧ (GetAllStatInfo.loop R bucket fuel km um ap w).2.1.hasOutHeadLine = ap.hasOutHeadLine := by
  intro fuel
  induction fuel with
  | zero => intro km um ap w; simp [GetAllStatInfo.loop]
  | succ n ih =>
    intro km um ap w
    simp only [GetAllStatInfo.loop]
    generalize hr : R.ListMultipartUploads bucket _ w.remote = r
    rcases r with ⟨res, remote1⟩
    cases res with
    | error e => simp [Env.record]
    | ok p =>
      by_cases hp : p.IsTruncated = true
      case neg => simp [hp, Env.record]
      case pos =>
        simp only [hp, if_true]
        obtain ⟨h1, h2, h3, h4⟩ := ih p.NextKeyMarker p.NextUploadIDMarker
          { ap with statList :=
              p.Uploads.foldl (fun l v => l ++ [(⟨v.Key, v.UploadID⟩ : StatPartInfo)]) ap.statList }
          (w.record remote1 (.ListMultipartUploads bucket
            [.MaxParts 1000, .KeyMarker km, .UploadIDMarker um] (.ok p)))
        exact ⟨by rw [h1]; simp [Env.record], h2, h3, h4⟩

theorem GASI_stdout {σ : Type} (R : Remote σ) (fuel : Nat) (ap : allPartSizeOptionType)
    (w : Env σ) :
    (GetAllStatInfo R fuel ap w).2.2.stdout = w.stdout
    ∧ (GetAllStatInfo R fuel ap w).2.1.bucketName = ap.bucketName
    ∧ (GetAllStatInfo R fuel ap w).2.1.encodingType = ap.encodingType
    ∧ (GetAllStatInfo R fuel ap w).2.1.hasOutHeadLine = ap.hasOutHeadLine := by
  simp only [GetAllStatInfo]
  generalize hr : R.ossClient ap.bucketName w.remote = r
  rcases r with ⟨res, remote1⟩
  cases res with
  | error e => simp [Env.record]
  | ok c =>
    simp only []
    generalize hr2 : R.Bucket c ap.bucketName _ = r2
    rcases r2 with ⟨res2, remote2⟩
    cases res2 with
    | error e => simp [Env.record]
    | ok b =>
      simp only []
      obtain ⟨h1, h2, h3, h4⟩ := GASI_loop_stdout R b fuel "" "" ap
        ((w.record remote1 (.ossClient ap.bucketName (.ok c))).record remote2
          (.Bucket c ap.bucketName (.ok b)))
      exact ⟨by rw [h1]; simp [Env.record], h2, h3, h4⟩

theorem GOPS_trace {σ : Type} (L : Lib) (R : Remote σ) (fuel : Nat) (bucket : OssBucket)
    (statInfo : StatPartInfo) (ap : allPartSizeOptionType) (w : Env σ) :
    ∃ new out,
      (GetObjectPartsSize L R fuel bucket statInfo ap w).2.2.calls = w.calls ++ new
      ∧ (GetObjectPartsSize L R fuel bucket statInfo ap w).2.2.stdout = w.stdout ++ out
      ∧ FailsLast new
          (fun e => (GetObjectPartsSize L R fuel bucket statInfo ap w).1 = .returned (0, 0, some e))
      ∧ ∀ p ∈ out, p = headLine
          ∨ ∃ v, p = partLine L ap ⟨ap.bucketName, statInfo.objectName, statInfo.uploadId⟩ v := by
  obtain ⟨new, h1, h2⟩ := GOPS_loop_run L R bucket
    ⟨ap.bucketName, statInfo.objectName, statInfo.uploadId⟩ fuel 0 ⟨0, 0, ⟨"", ""⟩, ap, w⟩
  obtain ⟨⟨out, h3, h4⟩, _⟩ := GOPS_loop_stdout L R bucket
    ⟨ap.bucketName, statInfo.objectName, statInfo.uploadId⟩ fuel 0 ⟨0, 0, ⟨"", ""⟩, ap, w⟩
  exact ⟨new, out, h1, h3, PartsRun_failsLast new 0 h2, h4⟩

theorem report_formats {L : Lib} {ap : allPartSizeOptionType}
    {imur : InitiateMultipartUploadResult} {p : Printf}
    (h : p = headLine ∨ ∃ v, p = partLine L ap imur v) :
    p.format = headFormat ∨ p.format = partFormat := by
  rcases h with rfl | ⟨v, rfl⟩
  · exact Or.inl rfl
  · exact Or.inr rfl

theorem sum_trace {σ : Type} (L : Lib) (R : Remote σ) (fuel : Nat) (bucket : OssBucket) :
    ∀ (l : List StatPartInfo) (c s : Int) (ap : allPartSizeOptionType) (w : Env σ),
      ∃ new out,
        (RunCommand.sum L R fuel bucket l c s ap w).2.2.calls = w.calls ++ new
        ∧ (RunCommand.sum L R fuel bucket l c s ap w).2.2.stdout = w.stdout ++ out
        ∧ FailsLast new
            (fun e => (RunCommand.sum L R fuel bucket l c s ap w).1 = .returned (.error e))
        ∧ ∀ p ∈ out, p.format = headFormat ∨ p.format = partFormat := by
  intro l
  induction l with
  | nil =>
    intro c s ap w
    exact ⟨[], [], by simp [RunCommand.sum], by simp [RunCommand.sum], FailsLast_nil _, by simp⟩
  | cons v rest ih =>
    intro c s ap w
    obtain ⟨new1, out1, h1, h2, h3, h4⟩ := GOPS_trace L R fuel bucket v ap w
    have h4f : ∀ p ∈ out1, p.format = headFormat ∨ p.format = partFormat :=
      fun p hp => report_formats (h4 p hp)
    simp only [RunCommand.sum]
    generalize hg : GetObjectPartsSize L R fuel bucket v ap w = g at h1 h2 h3
    rcases g with ⟨st, ap1, w1⟩
    cases st with
    | outOfFuel =>
      exact ⟨new1, out1, h1, h2, FailsLast_mono (fun e he => by simp at he) h3, h4f⟩
    | panic =>
      exact ⟨new1, out1, h1, h2, FailsLast_mono (fun e he => by simp at he) h3, h4f⟩
    | returned r =>
      rcases r with ⟨pc, ps, oe⟩
      cases oe with
      | some err =>
        refine ⟨new1, out1, h1, h2, FailsLast_mono (fun e he => ?_) h3, h4f⟩
        simp only [Status.returned.injEq, Prod.mk.injEq, Option.some.injEq] at he
        simp [he.2.2]
      | none =>
        simp only []
        obtain ⟨new2, out2, k1, k2, k3, k4⟩ := ih (int64 (c + pc)) (int64 (s + ps)) ap1 w1
        simp only at h1 h2
        refine ⟨new1 ++ new2, out1 ++ out2, by rw [k1, h1, List.append_assoc],
          by rw [k2, h2, List.append_assoc], ?_, ?_⟩
        · exact FailsLast_append (FailsLast_clean h3 (fun e he => by simp at he)) k3
        · intro p hp
          rcases List.mem_append.1 hp with hp | hp
          · exact h4f p hp
          · exact k4 p hp

theorem body_trace {σ : Type} (L : Lib) (R : Remote σ) (fuel : Nat)
    (apc : AllPartSizeCommand) (w : Env σ) :
    ∃ new out,
      (RunCommand.body L R fuel apc w).2.2.calls = w.calls ++ new
      ∧ (RunCommand.body L R fuel apc w).2.2.stdout = w.stdout ++ out
      ∧ FailsLast new (fun e => (RunCommand.body L R fuel apc w).1 = .returned (.error e))
      ∧ ∀ p ∈ out, p.format = headFormat ∨ p.format = partFormat := by
  simp only [RunCommand.body]
  cases hargs : apc.command.args with
  | nil => exact ⟨[], [], by simp, by simp, FailsLast_nil _, by simp⟩
  | cons arg0 args =>
    simp only []
    cases hurl : CheckBucketUrl L arg0 with
    | error err => exact ⟨[], [], by simp, by simp, FailsLast_nil _, by simp⟩
    | ok url =>
      simp only []
      generalize hap0 : ({ apc.apOption with
        bucketName := url.bucket,
        encodingType := (L.GetString L.OptionEncodingType apc.command.options).1 }
          : allPartSizeOptionType) = ap0
      obtain ⟨new1, h1, h2⟩ := GASI_failsLast R fuel ap0 w
      have h3 := (GASI_stdout R fuel ap0 w).1
      generalize hg : GetAllStatInfo R fuel ap0 w = g at h1 h2 h3
      rcases g with ⟨st, ap1, w1⟩
      simp only at h1 h2 h3
      cases st with
      | outOfFuel =>
        exact ⟨new1, [], h1, by simp [h3], FailsLast_mono (fun e he => by simp at he) h2, by simp⟩
      | panic =>
        exact ⟨new1, [], h1, by simp [h3], FailsLast_mono (fun e he => by simp at he) h2, by simp⟩
      | returned r =>
        cases r with
        | some err =>
          refine ⟨new1, [], h1, by simp [h3], FailsLast_mono (fun e he => ?_) h2, by simp⟩
          simp only [Status.returned.injEq, Option.some.injEq] at he
          simp [he]
        | none =>
          simp only []
          have hclean := FailsLast_clean h2 (fun e he => by simp at he)
          generalize hr : R.ossClient ap1.bucketName w1.remote = r
          rcases r with ⟨res, remote2⟩
          cases res with
          | error e =>
            refine ⟨new1 ++ [.ossClient ap1.bucketName (.error e)], [], by simp [Env.record, h1],
              by simp [Env.record, h3], FailsLast_append hclean (FailsLast_single ?_), by simp⟩
            intro e1 he1
            simp only [SdkCall.failure, errOf, Option.some.injEq] at he1
            simp [he1]
          | ok client =>
            simp only []
            generalize hr3 : R.Bucket client ap1.bucketName _ = r3
            rcases r3 with ⟨res3, remote3⟩
            cases res3 with
            | error e =>
              refine ⟨new1 ++ [.ossClient ap1.bucketName (.ok client),
                  .Bucket client ap1.bucketName (.error e)], [], by simp [Env.record, h1],
                by simp [Env.record, h3],
                FailsLast_append hclean (FailsLast_cons (by simp [SdkCall.failure, errOf])
                  (FailsLast_single ?_)), by simp⟩
              intro e1 he1
              simp only [SdkCall.failure, errOf, Option.some.injEq] at he1
              simp [he1]
            | ok bucket =>
              simp only []
              generalize hW : Env.record (Env.record w1 _ _) _ _ = W
              have hWc : W.calls = w.calls ++ (new1 ++ [.ossClient ap1.bucketName (.ok client),
                  .Bucket client ap1.bucketName (.ok bucket)]) := by
                rw [← hW]; simp [Env.record, h1]
              have hWo : W.stdout = w.stdout := by rw [← hW]; simp [Env.record, h3]
              obtain ⟨new2, out2, k1, k2, k3, k4⟩ := sum_trace L R fuel bucket ap1.statList 0 0 ap1 W
              refine ⟨(new1 ++ [.ossClient ap1.bucketName (.ok client),
                  .Bucket client ap1.bucketName (.ok bucket)]) ++ new2, out2,
                by rw [k1, hWc, List.append_assoc], by rw [k2, hWo], ?_, k4⟩
              refine FailsLast_append ?_ k3
              intro c hc
              rcases List.mem_append.1 hc with hc | hc
              · exact hclean c hc
              · simp only [List.mem_cons, List.mem_singleton, List.not_mem_nil, or_false] at hc
                rcases hc with rfl | rfl <;> simp [SdkCall.failure, errOf]

/-! ## C4: a failed SDK call ends the run -/

theorem format_ne_total {p : Printf} (h : p.format = headFormat ∨ p.format = partFormat) :
    p.format ≠ totalFormat := by
  rcases h with h | h <;> rw [h] <;> decide

theorem RunCommand_of_body {σ : Type} (L : Lib) (R : Remote σ) (fuel : Nat)
    (apc : AllPartSizeCommand) (w : Env σ) :
    (RunCommand L R fuel apc w).2.2.calls = (RunCommand.body L R fuel apc w).2.2.calls
    ∧ (∀ e, (RunCommand.body L R fuel apc w).1 = .returned (.error e) →
        (RunCommand L R fuel apc w).1 = .returned (some e)
        ∧ (RunCommand L R fuel apc w).2.2.stdout = (RunCommand.body L R fuel apc w).2.2.stdout)
    ∧ ((RunCommand L R fuel apc w).1 = .returned none →
        ∃ count size, (RunCommand.body L R fuel apc w).1 = .returned (.ok (count, size))
          ∧ (RunCommand L R fuel apc w).2.2.stdout
              = (RunCommand.body L R fuel apc w).2.2.stdout
                ++ (if 0 < size then
                      [⟨totalFormat, [.int count, .float64Div (Int.tdiv size 1024) 1024]⟩]
                    else [])) := by
  simp only [RunCommand]
  generalize RunCommand.body L R fuel apc w = g
  rcases g with ⟨st, apc1, w1⟩
  cases st with
  | outOfFuel => simp
  | panic => simp
  | returned r =>
    cases r with
    | error err => simp
    | ok t =>
      rcases t with ⟨count, size⟩
      by_cases hs : 0 < size
      · simp only [hs, if_true, Env.printf]
        exact ⟨trivial, by simp, fun _ => ⟨count, size, rfl, by simp [hs]⟩⟩
      · simp only [hs, if_false]
        exact ⟨trivial, by simp, fun _ => ⟨count, size, rfl, by simp [hs]⟩⟩

/-- C4: if an SDK call made during `RunCommand` (creating a client, obtaining a bucket handle,
`ListMultipartUploads` or `ListUploadedParts`) fails with error `e`, then that call is the
last SDK call of the run, `RunCommand` returns exactly `e`, and no line it printed is the
grand-total line.  Likewise a failed call of `GetObjectPartsSize` is its last, and the
function returns `(0, 0, e)` whatever it had counted before. -/
theorem C4_sdk_failure_aborts {σ : Type} (L : Lib) (R : Remote σ) (fuel : Nat)
    (apc : AllPartSizeCommand) (w : Env σ) (pre : List SdkCall) (c : SdkCall)
    (post : List SdkCall) (e : GoError)
    (hcalls : (RunCommand L R fuel apc w).2.2.calls = w.calls ++ (pre ++ c :: post))
    (hfail : c.failure = some e) :
    post = []
    ∧ (RunCommand L R fuel apc w).1 = .returned (some e)
    ∧ (∃ out, (RunCommand L R fuel apc w).2.2.stdout = w.stdout ++ out
        ∧ ∀ p ∈ out, p.format ≠ totalFormat)
    ∧ (∀ (bucket : OssBucket) (statInfo : StatPartInfo) (ap : allPartSizeOptionType)
        (w2 : Env σ) (pre2 : List SdkCall) (c2 : SdkCall) (post2 : List SdkCall) (e2 : GoError),
        (GetObjectPartsSize L R fuel bucket statInfo ap w2).2.2.calls
            = w2.calls ++ (pre2 ++ c2 :: post2) →
        c2.failure = some e2 →
        post2 = []
        ∧ (GetObjectPartsSize L R fuel bucket statInfo ap w2).1 = .returned (0, 0, some e2)) := by
  obtain ⟨new, out, h1, h2, h3, h4⟩ := body_trace L R fuel apc w
  obtain ⟨k1, k2, _⟩ := RunCommand_of_body L R fuel apc w
  rw [k1, h1] at hcalls
  have hnew := List.append_cancel_left hcalls
  obtain ⟨hpost, hst⟩ := h3 pre c post e hnew hfail
  obtain ⟨m1, m2⟩ := k2 e hst
  refine ⟨hpost, m1, ⟨out, by rw [m2, h2], fun p hp => format_ne_total (h4 p hp)⟩, ?_⟩
  intro bucket statInfo ap w2 pre2 c2 post2 e2 hc2 hf2
  obtain ⟨new2, _, g1, _, g3, _⟩ := GOPS_trace L R fuel bucket statInfo ap w2
  rw [g1] at hc2
  exact g3 pre2 c2 post2 e2 (List.append_cancel_left hc2) hf2

/-- C4 on the script whose second `ListUploadedParts` call fails with `boom`: that call is the
last one and `RunCommand` returns `boom`. -/
theorem C4_sdk_failure_aborts_witness :
    (RunCommand exampleLib scripted 5 exampleCommand (scriptedEnv failingScript)).2.2.calls.length
        = 8
    ∧ (RunCommand exampleLib scripted 5 exampleCommand (scriptedEnv failingScript)).1
        = .returned (some (.sdk "boom")) :=
  have h := C4_sdk_failure_aborts exampleLib scripted 5 exampleCommand (scriptedEnv failingScript)
    [.ossClient "b" (.ok ⟨1⟩), .Bucket ⟨1⟩ "b" (.ok ⟨1⟩),
     .ListMultipartUploads ⟨1⟩ [.MaxParts 1000, .KeyMarker "", .UploadIDMarker ""]
       (.ok exampleUploads1),
     .ListMultipartUploads ⟨1⟩ [.MaxParts 1000, .KeyMarker "k1", .UploadIDMarker "u1"]
       (.ok exampleUploads2),
     .ossClient "b" (.ok ⟨2⟩), .Bucket ⟨2⟩ "b" (.ok ⟨2⟩),
     .ListUploadedParts ⟨2⟩ ⟨"b", "k1", "u1"⟩ [.MaxParts 1000, .PartNumberMarker 0]
       (.ok examplePage1)]
    (.ListUploadedParts ⟨2⟩ ⟨"b", "k1", "u1"⟩ [.MaxParts 1000, .PartNumberMarker 2]
       (.error (.sdk "boom")))
    [] (.sdk "boom") (by decide) rfl
  ⟨by decide, h.2.1⟩

/-! ## C6: the grand-total line -/

/-- C6, refuted as stated: on the script with one upload whose only part has size 0,
`RunCommand` succeeds and prints the header line and one per-part line, and no grand-total
line. -/
theorem C6_counterexample :
    (RunCommand exampleLib scripted 5 exampleCommand (scriptedEnv emptyPartScript)).1
        = .returned none
    ∧ (RunCommand exampleLib scripted 5 exampleCommand (scriptedEnv emptyPartScript)).2.2.stdout
        = [headLine, ⟨partFormat, [.int 1, .str "u2", .int 0, .str "oss://b/k2"]⟩]
    ∧ ∀ p ∈ (RunCommand exampleLib scripted 5 exampleCommand
              (scriptedEnv emptyPartScript)).2.2.stdout, p.format ≠ totalFormat := by
  decide

/-- C6, amended: a successful `RunCommand` reaches line 104 with totals `count` and `size`;
what it printed is header and per-part lines only, followed, when `size > 0`, by exactly one
grand-total line, which reports `count` and `size/1024` (as megabytes) and comes after every
per-part line; when `size` is not positive no grand-total line is printed. -/
theorem C6_total_line_when_positive {σ : Type} (L : Lib) (R : Remote σ) (fuel : Nat)
    (apc : AllPartSizeCommand) (w : Env σ)
    (hok : (RunCommand L R fuel apc w).1 = .returned none) :
    ∃ count size out,
      (RunCommand.body L R fuel apc w).1 = .returned (.ok (count, size))
      ∧ (∀ p ∈ out, (p.format = headFormat ∨ p.format = partFormat) ∧ p.format ≠ totalFormat)
      ∧ (RunCommand L R fuel apc w).2.2.stdout
          = w.stdout ++ out
            ++ (if 0 < size then
                  [⟨totalFormat, [.int count, .float64Div (Int.tdiv size 1024) 1024]⟩]
                else []) := by
  obtain ⟨new, out, _, h2, _, h4⟩ := body_trace L R fuel apc w
  obtain ⟨_, _, k3⟩ := RunCommand_of_body L R fuel apc w
  obtain ⟨count, size, m1, m2⟩ := k3 hok
  exact ⟨count, size, out, m1, fun p hp => ⟨h4 p hp, format_ne_total (h4 p hp)⟩, by rw [m2, h2]⟩

/-- C6 amended, on the example script: the run succeeds with 4 parts and 164 bytes, and the
last thing printed is the grand-total line. -/
theorem C6_total_line_when_positive_witness :
    (RunCommand exampleLib scripted 5 exampleCommand (scriptedEnv exampleScript)).1
        = .returned none
    ∧ ∃ count size out,
      (RunCommand.body exampleLib scripted 5 exampleCommand (scriptedEnv exampleScript)).1
          = .returned (.ok (count, size))
      ∧ (∀ p ∈ out, (p.format = headFormat ∨ p.format = partFormat) ∧ p.format ≠ totalFormat)
      ∧ (RunCommand exampleLib scripted 5 exampleCommand (scriptedEnv exampleScript)).2.2.stdout
          = (scriptedEnv exampleScript).stdout ++ out
            ++ (if 0 < size then
                  [⟨totalFormat, [.int count, .float64Div (Int.tdiv size 1024) 1024]⟩]
                else []) :=
  ⟨by decide,
   C6_total_line_when_positive exampleLib scripted 5 exampleCommand (scriptedEnv exampleScript)
     (by decide)⟩

/-! ## C9: the bucket URL check -/

/-- C9: `CheckBucketUrl` returns an error exactly when the argument does not parse as a
storage URL, or parses to a URL that is not a cloud URL, or parses to a cloud URL with an
empty bucket name; it returns a cloud URL `c` exactly when the argument parses to `c` and the
bucket name of `c` is not empty; and when it fails on the first argument `RunCommand`
returns that error with the environment untouched, so no SDK call was made. -/
theorem C9_CheckBucketUrl (L : Lib) (strlUrl : String) :
    ((∃ e, CheckBucketUrl L strlUrl = .error e) ↔
      ((∃ e, L.StorageURLFromString strlUrl "" = .error e)
        ∨ (∃ u, L.StorageURLFromString strlUrl "" = .ok u ∧ u.IsCloudURL = false)
        ∨ (∃ c, L.StorageURLFromString strlUrl "" = .ok (.cloud c) ∧ c.bucket = "")))
    ∧ (∀ c, CheckBucketUrl L strlUrl = .ok c ↔
        (L.StorageURLFromString strlUrl "" = .ok (.cloud c) ∧ c.bucket ≠ ""))
    ∧ (∀ (σ : Type) (R : Remote σ) (fuel : Nat) (apc : AllPartSizeCommand) (w : Env σ)
        (rest : List String) (e : GoError),
        apc.command.args = strlUrl :: rest → CheckBucketUrl L strlUrl = .error e →
        RunCommand L R fuel apc w = (.returned (some e), apc, w)) := by
  refine ⟨?_, ?_, ?_⟩
  · unfold CheckBucketUrl
    cases hparse : L.StorageURLFromString strlUrl "" with
    | error e => simp
    | ok u =>
      cases u with
      | file f => simp [StorageURLer.IsCloudURL]
      | cloud c =>
        by_cases hb : c.bucket = "" <;> simp [StorageURLer.IsCloudURL, hb]
  · intro c
    unfold CheckBucketUrl
    cases hparse : L.StorageURLFromString strlUrl "" with
    | error e => simp
    | ok u =>
      cases u with
      | file f => simp [StorageURLer.IsCloudURL]
      | cloud d =>
        by_cases hb : d.bucket = ""
        · simp only [StorageURLer.IsCloudURL, hb]
          constructor
          · intro h; simp at h
          · rintro ⟨h1, h2⟩
            injection h1 with h1
            injection h1 with h1
            subst h1
            exact absurd hb h2
        · simp only [StorageURLer.IsCloudURL, hb]
          constructor
          · intro h
            simp at h
            subst h
            exact ⟨rfl, hb⟩
          · rintro ⟨h1, _⟩
            injection h1 with h1
            injection h1 with h1
            subst h1
            simp
  · intro σ R fuel apc w rest e hargs herr
    simp [RunCommand, RunCommand.body, hargs, herr]

/-- The three ways `CheckBucketUrl` fails and the way it succeeds, on concrete arguments. -/
theorem CheckBucketUrl_examples :
    CheckBucketUrl exampleLib "" = .error (.errorf "empty url")
    ∧ CheckBucketUrl exampleLib "dir/file"
        = .error (.errorf "parameter is not a cloud url,url is dir/file")
    ∧ CheckBucketUrl exampleLib "oss://" = .error (.errorf "bucket name is empty,url is oss://")
    ∧ CheckBucketUrl exampleLib "oss://b/k" = .ok ⟨"b", "k"⟩ := by
  decide

/-! ## C8: layout of the report lines -/

theorem leftJustified_pad (wid : Nat) (s : String) :
    LeftJustified wid s (Sprintf.pad true wid s) := by
  refine ⟨wid - s.length, by simp [Sprintf.pad], ?_⟩
  simp only [Sprintf.pad, if_true, String.length_append]
  show s.length + (List.replicate (wid - s.length) ' ').length = max wid s.length
  rw [List.length_replicate]
  omega

theorem Sprintf_headFormat (a b c d : String) :
    Sprintf headFormat [.str a, .str b, .str c, .str d]
      = some (Sprintf.pad true 10 a ++ "\t" ++ Sprintf.pad true 32 b ++ "\t"
          ++ Sprintf.pad true 10 c ++ "\t" ++ d ++ "\n") := by
  simp [Sprintf, headFormat, Sprintf.step, Sprintf.pad, List.foldl]

theorem Sprintf_partFormat (pn size : Int) (uid path : String) :
    Sprintf partFormat [.int pn, .str uid, .int size, .str path]
      = some (Sprintf.pad true 10 (toString pn) ++ "\t" ++ Sprintf.pad true 32 uid ++ "\t"
          ++ Sprintf.pad true 10 (toString size) ++ "\t" ++ path ++ "\n") := by
  simp [Sprintf, partFormat, Sprintf.step, Sprintf.pad, List.foldl]


theorem GOPS_loop_report {σ : Type} (L : Lib) (R : Remote σ) (bucket : OssBucket)
    (imur : InitiateMultipartUploadResult) :
    ∀ (fuel : Nat) (m : Int) (x : GetObjectPartsSize.Vars σ),
      ∃ new, (GetObjectPartsSize.loop L R bucket imur fuel m x).2.2.calls = x.w.calls ++ new
        ∧ (GetObjectPartsSize.loop L R bucket imur fuel m x).2.2.stdout
            = x.w.stdout ++ reportLines L imur x.ap (pagesOfCalls new) := by
  intro fuel
  induction fuel with
  | zero =>
    intro m x
    exact ⟨[], by simp [GetObjectPartsSize.loop], by simp [GetObjectPartsSize.loop,
      pagesOfCalls, reportLines]⟩
  | succ n ih =>
    intro m x
    simp only [GetObjectPartsSize.loop]
    generalize hr : R.ListUploadedParts bucket imur _ x.w.remote = r
    rcases r with ⟨res, remote1⟩
    cases res with
    | error e =>
      exact ⟨[.ListUploadedParts bucket imur [.MaxParts 1000, .PartNumberMarker m] (.error e)],
        by simp [Env.record], by simp [Env.record, pagesOfCalls, reportLines]⟩
    | ok p =>
      by_cases hp : p.IsTruncated = true
      case neg =>
        exact ⟨[.ListUploadedParts bucket imur [.MaxParts 1000, .PartNumberMarker m] (.ok p)],
          by simp [hp, page_w, Env.record],
          by simp [hp, page_w, Env.record, pagesOfCalls, reportLines]⟩
      case pos =>
        simp only [hp, if_true]
        cases hk : L.Atoi p.NextPartNumberMarker with
        | error e =>
          exact ⟨[.ListUploadedParts bucket imur [.MaxParts 1000, .PartNumberMarker m] (.ok p)],
            by simp [page_w, Env.record],
            by simp [page_w, Env.record, pagesOfCalls, reportLines]⟩
        | ok k =>
          simp only []
          obtain ⟨new, h1, h2⟩ := ih k (GetObjectPartsSize.page L imur p
            { x with w := x.w.record remote1 (.ListUploadedParts bucket imur
                [.MaxParts 1000, .PartNumberMarker m] (.ok p)) })
          refine ⟨.ListUploadedParts bucket imur [.MaxParts 1000, .PartNumberMarker m] (.ok p)
            :: new, ?_, ?_⟩
          · rw [h1]; simp [page_w, Env.record]
          · rw [h2]; simp [page_w, page_ap, Env.record, pagesOfCalls, reportLines]

/-- C8: the header line and the per-part lines have one layout.  What `GetObjectPartsSize`
prints is exactly `reportLines` of the pages of parts it received: for every page, in the
order received, the header line if no header was printed before and the page has a part,
then one line for each part of the page, in the order of the page.  The line of a part `v`
is `Printf` of the part format with `v.PartNumber`, the upload id of the upload, `v.Size`
and the cloud URL of the object, in this order, and the header line is `Printf` of the
header format with the four labels.  The text of either is four fields joined by single
tabs and ended by a newline; each of the first three fields is its content followed by
spaces only, up to the column width 10, 32 and 10, and is the content itself when that is as
long as the column or longer.  The fields of the header line are `PartNumber`, `UploadId`,
`Size(Byte)` and `Path`; those of the line of `v` are the decimal `PartNumber` of `v`, the
`UploadID` of the upload, the decimal `Size` of `v`, and the cloud URL of the object. -/
theorem C8_report_layout {σ : Type} (L : Lib) (R : Remote σ) (fuel : Nat) (bucket : OssBucket)
    (statInfo : StatPartInfo) (ap : allPartSizeOptionType) (w : Env σ) :
    (∃ new, (GetObjectPartsSize L R fuel bucket statInfo ap w).2.2.calls = w.calls ++ new
      ∧ (GetObjectPartsSize L R fuel bucket statInfo ap w).2.2.stdout
          = w.stdout
            ++ reportLines L ⟨ap.bucketName, statInfo.objectName, statInfo.uploadId⟩ ap
                (pagesOfCalls new))
    ∧ headLine
        = ⟨headFormat, [.str "PartNumber", .str "UploadId", .str "Size(Byte)", .str "Path"]⟩
    ∧ (∀ v : UploadedPart,
        partLine L ap ⟨ap.bucketName, statInfo.objectName, statInfo.uploadId⟩ v
          = ⟨partFormat, [.int v.PartNumber, .str statInfo.uploadId, .int v.Size,
              .str (L.ToString (.cloud ⟨ap.bucketName,
                if ap.encodingType = L.URLEncodingType then L.QueryEscape statInfo.objectName
                else statInfo.objectName⟩))]⟩)
    ∧ (∃ f1 f2 f3, Sprintf headLine.format headLine.args
          = some (f1 ++ "\t" ++ f2 ++ "\t" ++ f3 ++ "\t" ++ "Path" ++ "\n")
        ∧ LeftJustified 10 "PartNumber" f1 ∧ LeftJustified 32 "UploadId" f2
        ∧ LeftJustified 10 "Size(Byte)" f3)
    ∧ (∀ v : UploadedPart, ∃ f1 f2 f3,
        Sprintf (partLine L ap ⟨ap.bucketName, statInfo.objectName, statInfo.uploadId⟩ v).format
            (partLine L ap ⟨ap.bucketName, statInfo.objectName, statInfo.uploadId⟩ v).args
          = some (f1 ++ "\t" ++ f2 ++ "\t" ++ f3 ++ "\t"
              ++ objectPath L ap statInfo.objectName ++ "\n")
        ∧ LeftJustified 10 (toString v.PartNumber) f1 ∧ LeftJustified 32 statInfo.uploadId f2
        ∧ LeftJustified 10 (toString v.Size) f3) := by
  refine ⟨?_, rfl, fun v => rfl, ?_, ?_⟩
  · exact GOPS_loop_report L R bucket ⟨ap.bucketName, statInfo.objectName, statInfo.uploadId⟩
      fuel 0 ⟨0, 0, ⟨"", ""⟩, ap, w⟩
  · exact ⟨_, _, _, Sprintf_headFormat _ _ _ _, leftJustified_pad _ _, leftJustified_pad _ _,
      leftJustified_pad _ _⟩
  · intro v
    exact ⟨_, _, _, Sprintf_partFormat _ _ _ _, leftJustified_pad _ _, leftJustified_pad _ _,
      leftJustified_pad _ _⟩

/-- What `GetObjectPartsSize` prints for the first example upload: the header line, then the
lines of parts 1, 2 and 3 with their own sizes. -/
theorem report_lines_example :
    (GetObjectPartsSize exampleLib pagedSdk 5 ⟨1⟩ ⟨"k1", "u1"⟩
        { bucketName := "b", encodingType := "", hasOutHeadLine := false, statList := [] }
        ⟨(), [], []⟩).2.2.stdout.map (fun p => Sprintf p.format p.args)
      = [some "PartNumber\tUploadId                        \tSize(Byte)\tPath\n",
         some "1         \tu1                              \t100       \toss://b/k1\n",
         some "2         \tu1                              \t50        \toss://b/k1\n",
         some "3         \tu1                              \t7         \toss://b/k1\n"] := by
  decide

/-- The text of the header line, and of a part line with a field longer than its column. -/
theorem report_layout_examples :
    Sprintf headLine.format headLine.args
        = some "PartNumber\tUploadId                        \tSize(Byte)\tPath\n"
    ∧ Sprintf partFormat [.int 3, .str "ABC", .int (-12345678901), .str "oss://b/k"]
        = some "3         \tABC                             \t-12345678901\toss://b/k\n" := by
  decide

/-! ## C7: a second run on the same command object -/

theorem part_foldl_size_eq {σ τ : Type} (L : Lib) (ap ap' : allPartSizeOptionType)
    (imur imur' : InitiateMultipartUploadResult) (parts : List UploadedPart) :
    ∀ (s : CloudURL × Int × Env σ) (t : CloudURL × Int × Env τ), s.2.1 = t.2.1 →
      (parts.foldl (GetObjectPartsSize.part L ap imur) s).2.1
        = (parts.foldl (GetObjectPartsSize.part L ap' imur') t).2.1 := by
  induction parts with
  | nil => intro s t h; simpa using h
  | cons v rest ih =>
    intro s t h
    rw [List.foldl_cons, List.foldl_cons]
    exact ih _ _ (by simp [GetObjectPartsSize.part, h])

theorem page_size_eq {σ : Type} (L : Lib) (imur : InitiateMultipartUploadResult)
    (p : ListUploadedPartsResult) (x y : GetObjectPartsSize.Vars σ)
    (h : x.totalPartSize = y.totalPartSize) :
    (GetObjectPartsSize.page L imur p x).totalPartSize
      = (GetObjectPartsSize.page L imur p y).totalPartSize := by
  simp only [GetObjectPartsSize.page]
  exact part_foldl_size_eq L _ _ imur imur _ _ _ h

theorem GOPS_loop_stateless (L : Lib)
    (client : String → Except GoError OssClient)
    (bucketOf : OssClient → String → Except GoError OssBucket)
    (uploads : OssBucket → List OssOption → Except GoError ListMultipartUploadResult)
    (parts : OssBucket → InitiateMultipartUploadResult → List OssOption →
      Except GoError ListUploadedPartsResult)
    (bucket : OssBucket) (imur : InitiateMultipartUploadResult) :
    ∀ (fuel : Nat) (m : Int) (x y : GetObjectPartsSize.Vars Unit),
      x.totalPartCount = y.totalPartCount → x.totalPartSize = y.totalPartSize →
      (GetObjectPartsSize.loop L (stateless client bucketOf uploads parts) bucket imur fuel m x).1
        = (GetObjectPartsSize.loop L (stateless client bucketOf uploads parts) bucket imur
            fuel m y).1 := by
  intro fuel
  induction fuel with
  | zero => intro m x y _ _; simp [GetObjectPartsSize.loop]
  | succ n ih =>
    intro m x y hc hs
    simp only [GetObjectPartsSize.loop, stateless]
    cases parts bucket imur [.MaxParts 1000, .PartNumberMarker m] with
    | error e => rfl
    | ok p =>
      simp only []
      have hc1 : ∀ (wx wy : Env Unit),
          (GetObjectPartsSize.page L imur p { x with w := wx }).totalPartCount
            = (GetObjectPartsSize.page L imur p { y with w := wy }).totalPartCount := by
        intro wx wy; simp [page_count, hc]
      have hs1 : ∀ (wx wy : Env Unit),
          (GetObjectPartsSize.page L imur p { x with w := wx }).totalPartSize
            = (GetObjectPartsSize.page L imur p { y with w := wy }).totalPartSize := by
        intro wx wy; exact page_size_eq L imur p _ _ hs
      by_cases hp : p.IsTruncated = true
      case neg =>
        simp only [hp]
        simp only [Bool.false_eq_true, if_false, Status.returned.injEq, Prod.mk.injEq, and_true]
        exact ⟨hc1 _ _, hs1 _ _⟩
      case pos =>
        simp only [hp, if_true]
        cases L.Atoi p.NextPartNumberMarker with
        | error e => rfl
        | ok k => exact ih k _ _ (hc1 _ _) (hs1 _ _)

theorem GOPS_stateless (L : Lib)
    (client : String → Except GoError OssClient)
    (bucketOf : OssClient → String → Except GoError OssBucket)
    (uploads : OssBucket → List OssOption → Except GoError ListMultipartUploadResult)
    (parts : OssBucket → InitiateMultipartUploadResult → List OssOption →
      Except GoError ListUploadedPartsResult)
    (fuel : Nat) (bucket : OssBucket) (v : StatPartInfo)
    (ap ap' : allPartSizeOptionType) (w w' : Env Unit) (hb : ap.bucketName = ap'.bucketName) :
    (GetObjectPartsSize L (stateless client bucketOf uploads parts) fuel bucket v ap w).1
      = (GetObjectPartsSize L (stateless client bucketOf uploads parts) fuel bucket v ap' w').1 := by
  simp only [GetObjectPartsSize, hb]
  exact GOPS_loop_stateless L client bucketOf uploads parts bucket _ fuel 0 _ _ rfl rfl

theorem GOPS_keeps {σ : Type} (L : Lib) (R : Remote σ) (fuel : Nat) (bucket : OssBucket)
    (v : StatPartInfo) (ap : allPartSizeOptionType) (w : Env σ) :
    (GetObjectPartsSize L R fuel bucket v ap w).2.1.bucketName = ap.bucketName
    ∧ (GetObjectPartsSize L R fuel bucket v ap w).2.1.statList = ap.statList := by
  obtain ⟨_, h1, _, h3⟩ := GOPS_loop_stdout L R bucket
    ⟨ap.bucketName, v.objectName, v.uploadId⟩ fuel 0 ⟨0, 0, ⟨"", ""⟩, ap, w⟩
  exact ⟨h1, h3⟩

theorem sum_keeps {σ : Type} (L : Lib) (R : Remote σ) (fuel : Nat) (bucket : OssBucket) :
    ∀ (l : List StatPartInfo) (c s : Int) (ap : allPartSizeOptionType) (w : Env σ),
      (RunCommand.sum L R fuel bucket l c s ap w).2.1.bucketName = ap.bucketName
      ∧ (RunCommand.sum L R fuel bucket l c s ap w).2.1.statList = ap.statList := by
  intro l
  induction l with
  | nil => intro c s ap w; simp [RunCommand.sum]
  | cons v rest ih =>
    intro c s ap w
    obtain ⟨h1, h2⟩ := GOPS_keeps L R fuel bucket v ap w
    simp only [RunCommand.sum]
    generalize hg : GetObjectPartsSize L R fuel bucket v ap w = g at h1 h2
    rcases g with ⟨st, ap1, w1⟩
    simp only at h1 h2
    cases st with
    | outOfFuel => exact ⟨h1, h2⟩
    | panic => exact ⟨h1, h2⟩
    | returned r =>
      rcases r with ⟨pc, ps, oe⟩
      cases oe with
      | some err => exact ⟨h1, h2⟩
      | none =>
        simp only []
        obtain ⟨k1, k2⟩ := ih (int64 (c + pc)) (int64 (s + ps)) ap1 w1
        exact ⟨by rw [k1, h1], by rw [k2, h2]⟩

theorem sum_idem {σ : Type} (L : Lib) (R : Remote σ) (fuel : Nat) (bucket : OssBucket) :
    ∀ (l : List StatPartInfo) (c s : Int) (ap : allPartSizeOptionType) (w : Env σ) (C S : Int),
      int64 c = c → int64 s = s →
      (RunCommand.sum L R fuel bucket l c s ap w).1 = .returned (.ok (C, S)) →
      int64 C = C ∧ int64 S = S := by
  intro l
  induction l with
  | nil =>
    intro c s ap w C S hc hs h
    simp only [RunCommand.sum, Status.returned.injEq, Except.ok.injEq, Prod.mk.injEq] at h
    rw [← h.1, ← h.2]
    exact ⟨hc, hs⟩
  | cons v rest ih =>
    intro c s ap w C S hc hs h
    simp only [RunCommand.sum] at h
    generalize hg : GetObjectPartsSize L R fuel bucket v ap w = g at h
    rcases g with ⟨st, ap1, w1⟩
    cases st with
    | outOfFuel => simp at h
    | panic => simp at h
    | returned r =>
      rcases r with ⟨pc, ps, oe⟩
      cases oe with
      | some err => simp at h
      | none => exact ih _ _ ap1 w1 C S (int64_idem _) (int64_idem _) h

theorem sum_shift (L : Lib)
    (client : String → Except GoError OssClient)
    (bucketOf : OssClient → String → Except GoError OssBucket)
    (uploads : OssBucket → List OssOption → Except GoError ListMultipartUploadResult)
    (parts : OssBucket → InitiateMultipartUploadResult → List OssOption →
      Except GoError ListUploadedPartsResult)
    (fuel : Nat) (bucket : OssBucket) :
    ∀ (l : List StatPartInfo) (a b d e : Int) (ap ap' : allPartSizeOptionType)
      (w w' : Env Unit) (A B : Int),
      ap.bucketName = ap'.bucketName →
      (RunCommand.sum L (stateless client bucketOf uploads parts) fuel bucket l a b ap w).1
        = .returned (.ok (A, B)) →
      int64 a = a → int64 b = b →
      (RunCommand.sum L (stateless client bucketOf uploads parts) fuel bucket l
          (int64 (a + d)) (int64 (b + e)) ap' w').1
        = .returned (.ok (int64 (A + d), int64 (B + e))) := by
  intro l
  induction l with
  | nil =>
    intro a b d e ap ap' w w' A B _ h _ _
    simp only [RunCommand.sum, Status.returned.injEq, Except.ok.injEq, Prod.mk.injEq] at h
    simp [RunCommand.sum, h.1, h.2]
  | cons v rest ih =>
    intro a b d e ap ap' w w' A B hb h _ _
    have hg2 := GOPS_stateless L client bucketOf uploads parts fuel bucket v ap ap' w w' hb
    have hk := (GOPS_keeps L (stateless client bucketOf uploads parts) fuel bucket v ap w).1
    have hk' := (GOPS_keeps L (stateless client bucketOf uploads parts) fuel bucket v ap' w').1
    simp only [RunCommand.sum] at h ⊢
    generalize hg : GetObjectPartsSize L (stateless client bucketOf uploads parts) fuel bucket
      v ap w = g at h hg2 hk
    generalize hg' : GetObjectPartsSize L (stateless client bucketOf uploads parts) fuel bucket
      v ap' w' = g' at hg2 hk' ⊢
    rcases g with ⟨st, ap1, w1⟩
    rcases g' with ⟨st', ap1', w1'⟩
    simp only at hg2 hk hk'
    subst hg2
    cases st with
    | outOfFuel => simp at h
    | panic => simp at h
    | returned r =>
      rcases r with ⟨pc, ps, oe⟩
      cases oe with
      | some err => simp at h
      | none =>
        simp only [] at h ⊢
        have := ih (int64 (a + pc)) (int64 (b + ps)) d e ap1 ap1' w1 w1' A B
          (by rw [hk, hk', hb]) h (int64_idem _) (int64_idem _)
        rw [int64_add_left] at this
        rw [int64_add_left (b + ps)] at this
        rw [int64_add_left, int64_add_left (b + e)]
        rw [add_right_comm a d pc, add_right_comm b e ps]
        exact this

theorem sum_append {σ : Type} (L : Lib) (R : Remote σ) (fuel : Nat) (bucket : OssBucket)
    (l2 : List StatPartInfo) :
    ∀ (l1 : List StatPartInfo) (c s : Int) (ap : allPartSizeOptionType) (w : Env σ) (C S : Int),
      (RunCommand.sum L R fuel bucket l1 c s ap w).1 = .returned (.ok (C, S)) →
      RunCommand.sum L R fuel bucket (l1 ++ l2) c s ap w
        = RunCommand.sum L R fuel bucket l2 C S
            (RunCommand.sum L R fuel bucket l1 c s ap w).2.1
            (RunCommand.sum L R fuel bucket l1 c s ap w).2.2 := by
  intro l1
  induction l1 with
  | nil =>
    intro c s ap w C S h
    simp only [RunCommand.sum, Status.returned.injEq, Except.ok.injEq, Prod.mk.injEq] at h
    simp [RunCommand.sum, h.1, h.2]
  | cons v rest ih =>
    intro c s ap w C S h
    simp only [List.cons_append, RunCommand.sum] at h ⊢
    generalize hg : GetObjectPartsSize L R fuel bucket v ap w = g at h ⊢
    rcases g with ⟨st, ap1, w1⟩
    cases st with
    | outOfFuel => simp at h
    | panic => simp at h
    | returned r =>
      rcases r with ⟨pc, ps, oe⟩
      cases oe with
      | some err => simp at h
      | none => exact ih _ _ ap1 w1 C S h

theorem stateless_uploads
    (client : String → Except GoError OssClient)
    (bucketOf : OssClient → String → Except GoError OssBucket)
    (uploads : OssBucket → List OssOption → Except GoError ListMultipartUploadResult)
    (parts : OssBucket → InitiateMultipartUploadResult → List OssOption →
      Except GoError ListUploadedPartsResult)
    (b : OssBucket) (o : List OssOption) (s : Unit) :
    (stateless client bucketOf uploads parts).ListMultipartUploads b o s = (uploads b o, s) :=
  rfl

theorem stateless_ossClient
    (client : String → Except GoError OssClient)
    (bucketOf : OssClient → String → Except GoError OssBucket)
    (uploads : OssBucket → List OssOption → Except GoError ListMultipartUploadResult)
    (parts : OssBucket → InitiateMultipartUploadResult → List OssOption →
      Except GoError ListUploadedPartsResult)
    (n : String) (s : Unit) :
    (stateless client bucketOf uploads parts).ossClient n s = (client n, s) :=
  rfl

theorem stateless_Bucket
    (client : String → Except GoError OssClient)
    (bucketOf : OssClient → String → Except GoError OssBucket)
    (uploads : OssBucket → List OssOption → Except GoError ListMultipartUploadResult)
    (parts : OssBucket → InitiateMultipartUploadResult → List OssOption →
      Except GoError ListUploadedPartsResult)
    (c : OssClient) (n : String) (s : Unit) :
    (stateless client bucketOf uploads parts).Bucket c n s = (bucketOf c n, s) :=
  rfl

theorem GASI_loop_stateless
    (client : String → Except GoError OssClient)
    (bucketOf : OssClient → String → Except GoError OssBucket)
    (uploads : OssBucket → List OssOption → Except GoError ListMultipartUploadResult)
    (parts : OssBucket → InitiateMultipartUploadResult → List OssOption →
      Except GoError ListUploadedPartsResult)
    (bucket : OssBucket) :
    ∀ (fuel : Nat) (km um : String) (ap ap' : allPartSizeOptionType) (w w' : Env Unit),
      (GetAllStatInfo.loop (stateless client bucketOf uploads parts) bucket fuel km um ap w).1
        = (GetAllStatInfo.loop (stateless client bucketOf uploads parts) bucket fuel km um
            ap' w').1
      ∧ ∃ l,
        (GetAllStatInfo.loop (stateless client bucketOf uploads parts) bucket fuel km um
            ap w).2.1.statList = ap.statList ++ l
        ∧ (GetAllStatInfo.loop (stateless client bucketOf uploads parts) bucket fuel km um
            ap' w').2.1.statList = ap'.statList ++ l := by
  intro fuel
  induction fuel with
  | zero => intro km um ap ap' w w'; exact ⟨rfl, [], by simp [GetAllStatInfo.loop]⟩
  | succ n ih =>
    intro km um ap ap' w w'
    simp only [GetAllStatInfo.loop, stateless_uploads]
    cases uploads bucket [.MaxParts 1000, .KeyMarker km, .UploadIDMarker um] with
    | error e => exact ⟨rfl, [], by simp⟩
    | ok p =>
      simp only []
      by_cases hp : p.IsTruncated = true
      case neg =>
        simp only [hp]
        exact ⟨rfl, p.Uploads.map refOfUpload, by simp [statList_foldl]⟩
      case pos =>
        simp only [hp, if_true]
        obtain ⟨h1, l, h2, h3⟩ := ih p.NextKeyMarker p.NextUploadIDMarker
          { ap with statList :=
              p.Uploads.foldl (fun l v => l ++ [(⟨v.Key, v.UploadID⟩ : StatPartInfo)]) ap.statList }
          { ap' with statList :=
              p.Uploads.foldl (fun l v => l ++ [(⟨v.Key, v.UploadID⟩ : StatPartInfo)]) ap'.statList }
          (w.record w.remote (.ListMultipartUploads bucket
            [.MaxParts 1000, .KeyMarker km, .UploadIDMarker um] (.ok p)))
          (w'.record w'.remote (.ListMultipartUploads bucket
            [.MaxParts 1000, .KeyMarker km, .UploadIDMarker um] (.ok p)))
        refine ⟨h1, p.Uploads.map refOfUpload ++ l, ?_, ?_⟩
        · rw [h2]; simp [statList_foldl]
        · rw [h3]; simp [statList_foldl]

theorem GASI_stateless
    (client : String → Except GoError OssClient)
    (bucketOf : OssClient → String → Except GoError OssBucket)
    (uploads : OssBucket → List OssOption → Except GoError ListMultipartUploadResult)
    (parts : OssBucket → InitiateMultipartUploadResult → List OssOption →
      Except GoError ListUploadedPartsResult)
    (fuel : Nat) (ap ap' : allPartSizeOptionType) (w w' : Env Unit)
    (hb : ap.bucketName = ap'.bucketName) :
    (GetAllStatInfo (stateless client bucketOf uploads parts) fuel ap w).1
      = (GetAllStatInfo (stateless client bucketOf uploads parts) fuel ap' w').1
    ∧ ∃ l, (GetAllStatInfo (stateless client bucketOf uploads parts) fuel ap w).2.1.statList
          = ap.statList ++ l
      ∧ (GetAllStatInfo (stateless client bucketOf uploads parts) fuel ap' w').2.1.statList
          = ap'.statList ++ l := by
  simp only [GetAllStatInfo, stateless_ossClient, stateless_Bucket, Env.record, ← hb]
  cases client ap.bucketName with
  | error e => exact ⟨rfl, [], by simp⟩
  | ok c =>
    simp only []
    cases bucketOf c ap.bucketName with
    | error e => exact ⟨rfl, [], by simp⟩
    | ok b =>
      simp only []
      exact GASI_loop_stateless client bucketOf uploads parts b fuel "" "" ap ap' _ _

theorem body_steps_stateless (L : Lib)
    (client : String → Except GoError OssClient)
    (bucketOf : OssClient → String → Except GoError OssBucket)
    (uploads : OssBucket → List OssOption → Except GoError ListMultipartUploadResult)
    (parts : OssBucket → InitiateMultipartUploadResult → List OssOption →
      Except GoError ListUploadedPartsResult)
    (fuel : Nat) (apc : AllPartSizeCommand) (w : Env Unit)
    (arg0 : String) (args : List String) (url : CloudURL) (c : OssClient) (b : OssBucket)
    (hargs : apc.command.args = arg0 :: args)
    (hurl : CheckBucketUrl L arg0 = .ok url)
    (hg : (GetAllStatInfo (stateless client bucketOf uploads parts) fuel
            { apc.apOption with
              bucketName := url.bucket,
              encodingType := (L.GetString L.OptionEncodingType apc.command.options).1 } w).1
          = .returned none)
    (hc : client url.bucket = .ok c) (hb : bucketOf c url.bucket = .ok b) :
    ∃ w3,
      (RunCommand.body L (stateless client bucketOf uploads parts) fuel apc w).1
        = (RunCommand.sum L (stateless client bucketOf uploads parts) fuel b
            (GetAllStatInfo (stateless client bucketOf uploads parts) fuel
              { apc.apOption with
                bucketName := url.bucket,
                encodingType := (L.GetString L.OptionEncodingType apc.command.options).1 }
              w).2.1.statList 0 0
            (GetAllStatInfo (stateless client bucketOf uploads parts) fuel
              { apc.apOption with
                bucketName := url.bucket,
                encodingType := (L.GetString L.OptionEncodingType apc.command.options).1 }
              w).2.1 w3).1
      ∧ (RunCommand.body L (stateless client bucketOf uploads parts) fuel apc w).2.1
        = { apc with apOption :=
            (RunCommand.sum L (stateless client bucketOf uploads parts) fuel b
              (GetAllStatInfo (stateless client bucketOf uploads parts) fuel
                { apc.apOption with
                  bucketName := url.bucket,
                  encodingType := (L.GetString L.OptionEncodingType apc.command.options).1 }
                w).2.1.statList 0 0
              (GetAllStatInfo (stateless client bucketOf uploads parts) fuel
                { apc.apOption with
                  bucketName := url.bucket,
                  encodingType := (L.GetString L.OptionEncodingType apc.command.options).1 }
                w).2.1 w3).2.1 } := by
  have hkeep := (GASI_stdout (stateless client bucketOf uploads parts) fuel
    { apc.apOption with
      bucketName := url.bucket,
      encodingType := (L.GetString L.OptionEncodingType apc.command.options).1 } w).2.1
  simp only [RunCommand.body, hargs, hurl]
  generalize hG : GetAllStatInfo (stateless client bucketOf uploads parts) fuel _ w = g
    at hg hkeep ⊢
  rcases g with ⟨st, ap1, w1⟩
  simp only at hg hkeep
  subst hg
  simp only [stateless_ossClient, stateless_Bucket, Env.record, hkeep, hc, hb]
  exact ⟨_, rfl, rfl⟩

theorem body_ok_stateless (L : Lib)
    (client : String → Except GoError OssClient)
    (bucketOf : OssClient → String → Except GoError OssBucket)
    (uploads : OssBucket → List OssOption → Except GoError ListMultipartUploadResult)
    (parts : OssBucket → InitiateMultipartUploadResult → List OssOption →
      Except GoError ListUploadedPartsResult)
    (fuel : Nat) (apc : AllPartSizeCommand) (w : Env Unit) (t : Int × Int)
    (hfirst : (RunCommand.body L (stateless client bucketOf uploads parts) fuel apc w).1
      = .returned (.ok t)) :
    ∃ arg0 args url c b,
      apc.command.args = arg0 :: args
      ∧ CheckBucketUrl L arg0 = .ok url
      ∧ (GetAllStatInfo (stateless client bucketOf uploads parts) fuel
            { apc.apOption with
              bucketName := url.bucket,
              encodingType := (L.GetString L.OptionEncodingType apc.command.options).1 } w).1
          = .returned none
      ∧ client url.bucket = .ok c ∧ bucketOf c url.bucket = .ok b := by
  simp only [RunCommand.body] at hfirst
  cases hargs : apc.command.args with
  | nil => simp [hargs] at hfirst
  | cons arg0 args =>
    simp only [hargs] at hfirst
    cases hurl : CheckBucketUrl L arg0 with
    | error err => simp [hurl] at hfirst
    | ok url =>
      simp only [hurl] at hfirst
      have hkeep := (GASI_stdout (stateless client bucketOf uploads parts) fuel
        { apc.apOption with
          bucketName := url.bucket,
          encodingType := (L.GetString L.OptionEncodingType apc.command.options).1 } w).2.1
      refine ⟨arg0, args, url, ?_⟩
      generalize hG : GetAllStatInfo (stateless client bucketOf uploads parts) fuel _ w = g
        at hfirst hkeep ⊢
      rcases g with ⟨st, ap1, w1⟩
      simp only at hkeep
      cases st with
      | outOfFuel => simp at hfirst
      | panic => simp at hfirst
      | returned r =>
        cases r with
        | some err => simp at hfirst
        | none =>
          simp only [stateless_ossClient, stateless_Bucket, Env.record, hkeep] at hfirst
          cases hc : client url.bucket with
          | error e => simp [hc] at hfirst
          | ok c =>
            simp only [hc] at hfirst
            cases hb : bucketOf c url.bucket with
            | error e => simp [hb] at hfirst
            | ok b =>
              exact ⟨c, b, rfl, hurl, rfl, rfl, hb⟩

theorem RunCommand_apc {σ : Type} (L : Lib) (R : Remote σ) (fuel : Nat)
    (apc : AllPartSizeCommand) (w : Env σ) :
    (RunCommand L R fuel apc w).2.1 = (RunCommand.body L R fuel apc w).2.1 := by
  simp only [RunCommand]
  generalize RunCommand.body L R fuel apc w = g
  rcases g with ⟨st, apc1, w1⟩
  cases st with
  | outOfFuel => rfl
  | panic => rfl
  | returned r =>
    cases r with
    | error err => rfl
    | ok t =>
      rcases t with ⟨count, size⟩
      simp only []
      split <;> rfl

/-- C7, refuted as stated: with an SDK that answers every request the same way (one upload
with one part of 2048 bytes), the first `RunCommand` on a fresh command object totals 1 part
and 2048 bytes, the upload reference is still in `statList` afterwards, and a second
`RunCommand` on the same object totals 2 parts and 4096 bytes. -/
theorem C7_counterexample :
    (RunCommand.body exampleLib repeatingSdk 5 exampleCommand ⟨(), [], []⟩).1
        = .returned (.ok (1, 2048))
    ∧ (RunCommand exampleLib repeatingSdk 5 exampleCommand ⟨(), [], []⟩).2.1.apOption.statList
        = [⟨"k2", "u2"⟩]
    ∧ (RunCommand.body exampleLib repeatingSdk 5
          (RunCommand exampleLib repeatingSdk 5 exampleCommand ⟨(), [], []⟩).2.1
          (RunCommand exampleLib repeatingSdk 5 exampleCommand ⟨(), [], []⟩).2.2).1
        = .returned (.ok (2, 4096))
    ∧ (RunCommand exampleLib repeatingSdk 5 exampleCommand ⟨(), [], []⟩).2.2.stdout.getLast?
        = some ⟨totalFormat, [.int 1, .float64Div 2 1024]⟩
    ∧ (RunCommand exampleLib repeatingSdk 5
          (RunCommand exampleLib repeatingSdk 5 exampleCommand ⟨(), [], []⟩).2.1
          (RunCommand exampleLib repeatingSdk 5 exampleCommand ⟨(), [], []⟩).2.2).2.2.stdout.getLast?
        = some ⟨totalFormat, [.int 2, .float64Div 4 1024]⟩ := by
  decide

/-- C7, amended: the totals do not outlive an invocation (each starts from 0), but the
upload references do, because `statList` is never cleared.  With an SDK that answers every
request the same way, if `RunCommand` on a command object with an empty `statList` reaches
its end with totals `count` and `size`, then a second `RunCommand` on the same object finds
every reference of the first still in `statList`, lists them again, leaves each reference
twice in `statList`, and reaches its end with the totals doubled (as `int64`). -/
theorem C7_second_run_counts_twice (L : Lib)
    (client : String → Except GoError OssClient)
    (bucketOf : OssClient → String → Except GoError OssBucket)
    (uploads : OssBucket → List OssOption → Except GoError ListMultipartUploadResult)
    (parts : OssBucket → InitiateMultipartUploadResult → List OssOption →
      Except GoError ListUploadedPartsResult)
    (fuel : Nat) (apc : AllPartSizeCommand) (w : Env Unit) (count size : Int)
    (hfresh : apc.apOption.statList = [])
    (hfirst : (RunCommand.body L (stateless client bucketOf uploads parts) fuel apc w).1
      = .returned (.ok (count, size))) :
    (RunCommand.body L (stateless client bucketOf uploads parts) fuel
        (RunCommand L (stateless client bucketOf uploads parts) fuel apc w).2.1
        (RunCommand L (stateless client bucketOf uploads parts) fuel apc w).2.2).1
      = .returned (.ok (int64 (count + count), int64 (size + size)))
    ∧ (RunCommand.body L (stateless client bucketOf uploads parts) fuel
        (RunCommand L (stateless client bucketOf uploads parts) fuel apc w).2.1
        (RunCommand L (stateless client bucketOf uploads parts) fuel apc w).2.2).2.1.apOption.statList
      = (RunCommand L (stateless client bucketOf uploads parts) fuel apc w).2.1.apOption.statList
        ++ (RunCommand L (stateless client bucketOf uploads parts) fuel apc w).2.1.apOption.statList := by
  obtain ⟨arg0, args, url, c, b, hargs, hurl, hg, hc, hb⟩ :=
    body_ok_stateless L client bucketOf uploads parts fuel apc w (count, size) hfirst
  obtain ⟨w3, s1, s2⟩ :=
    body_steps_stateless L client bucketOf uploads parts fuel apc w arg0 args url c b
      hargs hurl hg hc hb
  rw [RunCommand_apc]
  generalize (RunCommand L (stateless client bucketOf uploads parts) fuel apc w).2.2 = w'
  rw [s1] at hfirst
  -- the option block with which the first run lists the uploads, and what the listing leaves
  generalize hap0 : ({ apc.apOption with
      bucketName := url.bucket,
      encodingType := (L.GetString L.OptionEncodingType apc.command.options).1 }
        : allPartSizeOptionType) = ap0 at hg s1 s2 hfirst
  have hap0s : ap0.statList = [] := by rw [← hap0]; exact hfresh
  have hap0b : ap0.bucketName = url.bucket := by rw [← hap0]
  obtain ⟨_, g2, _, _⟩ := GASI_stdout (stateless client bucketOf uploads parts) fuel ap0 w
  generalize hG : GetAllStatInfo (stateless client bucketOf uploads parts) fuel ap0 w = g
    at hg s1 s2 hfirst g2
  rcases g with ⟨st, ap1, w1⟩
  simp only at hg s1 s2 hfirst g2
  obtain ⟨k1, k2⟩ := sum_keeps L (stateless client bucketOf uploads parts) fuel b
    ap1.statList 0 0 ap1 w3
  obtain ⟨i1, i2⟩ := sum_idem L (stateless client bucketOf uploads parts) fuel b
    ap1.statList 0 0 ap1 w3 count size rfl rfl hfirst
  rw [s2]
  generalize hap4 : (RunCommand.sum L (stateless client bucketOf uploads parts) fuel b
    ap1.statList 0 0 ap1 w3).2.1 = ap4 at k1 k2
  -- the second run
  have hargs2 : ({ apc with apOption := ap4 } : AllPartSizeCommand).command.args = arg0 :: args :=
    hargs
  have hb2 : ({ ap4 with
      bucketName := url.bucket,
      encodingType := (L.GetString L.OptionEncodingType apc.command.options).1 }
        : allPartSizeOptionType).bucketName = ap0.bucketName := by rw [hap0b]
  obtain ⟨d1, l, d2, d3⟩ := GASI_stateless client bucketOf uploads parts fuel _ ap0 w' w hb2
  rw [hG] at d1 d3
  simp only at d1 d3
  rw [hg] at d1
  rw [hap0s, List.nil_append] at d3
  obtain ⟨w3', t1, t2⟩ :=
    body_steps_stateless L client bucketOf uploads parts fuel { apc with apOption := ap4 } w'
      arg0 args url c b hargs2 hurl d1 hc hb
  obtain ⟨_, e2, _, _⟩ := GASI_stdout (stateless client bucketOf uploads parts) fuel
    ({ ap4 with
      bucketName := url.bucket,
      encodingType := (L.GetString L.OptionEncodingType apc.command.options).1 }
        : allPartSizeOptionType) w'
  simp only at t1 t2 d2 e2
  generalize hG2 : GetAllStatInfo (stateless client bucketOf uploads parts) fuel
    ({ ap4 with
      bucketName := url.bucket,
      encodingType := (L.GetString L.OptionEncodingType apc.command.options).1 }
        : allPartSizeOptionType) w' = g2' at t1 t2 d2 e2
  rcases g2' with ⟨st2, ap1', w1'⟩
  simp only at t1 t2 d2 e2
  have hst2 : ap1'.statList = ap1.statList ++ ap1.statList := by
    rw [d2, k2, d3]
  have hbn : ap1.bucketName = ap1'.bucketName := by rw [g2, e2, hap0b]
  -- first half of the doubled list: the totals of the first run again
  have hA : (RunCommand.sum L (stateless client bucketOf uploads parts) fuel b
      ap1.statList 0 0 ap1' w3').1 = .returned (.ok (count, size)) := by
    have := sum_shift L client bucketOf uploads parts fuel b ap1.statList 0 0 0 0 ap1 ap1'
      w3 w3' count size hbn hfirst rfl rfl
    have z : int64 ((0 : Int) + 0) = 0 := by decide
    rw [z, add_zero, add_zero, i1, i2] at this
    exact this
  -- second half: the same parts added to those totals
  have hkeepA := (sum_keeps L (stateless client bucketOf uploads parts) fuel b
    ap1.statList 0 0 ap1' w3').1
  have hB := sum_shift L client bucketOf uploads parts fuel b ap1.statList 0 0 count size ap1
    (RunCommand.sum L (stateless client bucketOf uploads parts) fuel b
      ap1.statList 0 0 ap1' w3').2.1
    w3
    (RunCommand.sum L (stateless client bucketOf uploads parts) fuel b
      ap1.statList 0 0 ap1' w3').2.2
    count size (by rw [hkeepA, hbn]) hfirst rfl rfl
  simp only [zero_add, i1, i2] at hB
  refine ⟨?_, ?_⟩
  · rw [t1, hst2, sum_append L _ fuel b ap1.statList ap1.statList 0 0 ap1' w3' count size hA]
    exact hB
  · rw [t2]
    simp only
    rw [(sum_keeps L (stateless client bucketOf uploads parts) fuel b ap1'.statList 0 0
      ap1' w3').2, hst2, k2]

/-- C7 amended, on the SDK that repeats its answers: after a first run that totals 1 part and
2048 bytes, the second run totals twice as much. -/
theorem C7_second_run_counts_twice_witness :
    (RunCommand.body exampleLib repeatingSdk 5 exampleCommand ⟨(), [], []⟩).1
        = .returned (.ok (1, 2048))
    ∧ (RunCommand.body exampleLib repeatingSdk 5
          (RunCommand exampleLib repeatingSdk 5 exampleCommand ⟨(), [], []⟩).2.1
          (RunCommand exampleLib repeatingSdk 5 exampleCommand ⟨(), [], []⟩).2.2).1
        = .returned (.ok (int64 (1 + 1), int64 (2048 + 2048))) :=
  ⟨by decide,
   (C7_second_run_counts_twice exampleLib (fun _ => .ok ⟨1⟩) (fun _ _ => .ok ⟨1⟩)
      (fun _ _ => .ok exampleUploads2) (fun _ _ _ => .ok repeatPage)
      5 exampleCommand ⟨(), [], []⟩ 1 2048 rfl (by decide)).1⟩

/-! ## C3: the totals of a run -/

theorem countOfPages_append (a b : List ListUploadedPartsResult) :
    countOfPages (a ++ b) = countOfPages a + countOfPages b := by
  simp [countOfPages]

theorem sizeOfPages_append (a b : List ListUploadedPartsResult) :
    sizeOfPages (a ++ b) = sizeOfPages a + sizeOfPages b := by
  simp [sizeOfPages]

theorem GOPS_loop_served {σ : Type} (L : Lib) (R : Remote σ) (bucket : OssBucket)
    (imur : InitiateMultipartUploadResult) (s1 : σ) :
    ∀ (pages : List ListUploadedPartsResult) (fuel : Nat) (m : Int)
      (x : GetObjectPartsSize.Vars σ),
      PartsServed L R bucket imur m x.w.remote pages s1 → pages.length ≤ fuel →
      int64 x.totalPartSize = x.totalPartSize →
      (GetObjectPartsSize.loop L R bucket imur fuel m x).1
          = .returned (int64 (x.totalPartCount + countOfPages pages),
                       int64 (x.totalPartSize + sizeOfPages pages), none)
      ∧ (GetObjectPartsSize.loop L R bucket imur fuel m x).2.2.remote = s1 := by
  intro pages
  induction pages with
  | nil => intro fuel m x h; simp [PartsServed] at h
  | cons p rest ih =>
    intro fuel m x h hfuel hs
    obtain ⟨n, rfl⟩ : ∃ n, fuel = n + 1 := ⟨fuel - 1, by simp at hfuel; omega⟩
    simp only [PartsServed] at h
    obtain ⟨s0, hr, h2⟩ := h
    simp only [GetObjectPartsSize.loop, hr]
    by_cases hp : p.IsTruncated = true
    case neg =>
      simp only [hp] at h2
      obtain ⟨rfl, rfl⟩ := h2
      simp [hp, page_count, page_size, page_w, hs, Env.record, countOfPages, sizeOfPages]
    case pos =>
      simp only [hp, if_true] at h2 ⊢
      obtain ⟨k, hk, hrest⟩ := h2
      simp only [hk]
      generalize hY : GetObjectPartsSize.page L imur p _ = Y
      have hYw : Y.w.remote = s0 := by rw [← hY]; simp [page_w, Env.record]
      have hYs : int64 Y.totalPartSize = Y.totalPartSize := by
        rw [← hY, page_size]
        · exact int64_idem _
        · exact hs
      obtain ⟨h1, h3⟩ := ih n k Y (by rw [hYw]; exact hrest) (by simp at hfuel; omega) hYs
      refine ⟨?_, h3⟩
      rw [h1, ← hY, page_count, page_size]
      · simp only [countOfPages, sizeOfPages, List.map_cons, List.sum_cons,
          int64_add_left, add_assoc]
      · exact hs

theorem sum_served {σ : Type} (L : Lib) (R : Remote σ) (fuel : Nat) (bucket : OssBucket)
    (s1 : σ) :
    ∀ (l : List StatPartInfo) (chains : List (List ListUploadedPartsResult))
      (c s : Int) (ap : allPartSizeOptionType) (w : Env σ),
      AllPartsServed L R bucket ap.bucketName l w.remote chains s1 →
      (∀ ch ∈ chains, ch.length ≤ fuel) → int64 c = c → int64 s = s →
      (RunCommand.sum L R fuel bucket l c s ap w).1
        = .returned (.ok (int64 (c + countOfPages (allPages chains)),
                          int64 (s + sizeOfPages (allPages chains)))) := by
  intro l
  induction l with
  | nil =>
    intro chains c s ap w h _ hc hs
    rcases chains with _ | ⟨ch, chains⟩
    · simp [RunCommand.sum, allPages, countOfPages, sizeOfPages, hc, hs]
    · simp [AllPartsServed] at h
  | cons v l ih =>
    intro chains c s ap w h hfuel hc hs
    rcases chains with _ | ⟨ch, chains⟩
    · simp [AllPartsServed] at h
    · simp only [AllPartsServed] at h
      obtain ⟨s0, hch, hrest⟩ := h
      obtain ⟨h1, h2⟩ := GOPS_loop_served L R bucket ⟨ap.bucketName, v.objectName, v.uploadId⟩
        s0 ch fuel 0 ⟨0, 0, ⟨"", ""⟩, ap, w⟩ hch (hfuel ch (by simp)) rfl
      have hk := (GOPS_keeps L R fuel bucket v ap w).1
      simp only [RunCommand.sum]
      change (GetObjectPartsSize L R fuel bucket v ap w).1 = _ at h1
      change (GetObjectPartsSize L R fuel bucket v ap w).2.2.remote = _ at h2
      generalize hg : GetObjectPartsSize L R fuel bucket v ap w = g at h1 h2 hk
      rcases g with ⟨st, ap1, w1⟩
      simp only at h1 h2 hk
      subst h1
      simp only []
      rw [ih chains _ _ ap1 w1 (by rw [h2, hk]; exact hrest)
        (fun d hd => hfuel d (by simp [hd])) (int64_idem _) (int64_idem _)]
      simp only [zero_add, allPages, countOfPages_append, sizeOfPages_append, int64_add_left,
        int64_add_right, add_assoc]

theorem GASI_loop_served {σ : Type} (R : Remote σ) (bucket : OssBucket) (s1 : σ) :
    ∀ (pages : List ListMultipartUploadResult) (fuel : Nat) (km um : String)
      (ap : allPartSizeOptionType) (w : Env σ),
      UploadsServed R bucket km um w.remote pages s1 → pages.length ≤ fuel →
      (GetAllStatInfo.loop R bucket fuel km um ap w).1 = .returned none
      ∧ (GetAllStatInfo.loop R bucket fuel km um ap w).2.1
          = { ap with statList := ap.statList ++ refsOfPages pages }
      ∧ (GetAllStatInfo.loop R bucket fuel km um ap w).2.2.remote = s1 := by
  intro pages
  induction pages with
  | nil => intro fuel km um ap w h; simp [UploadsServed] at h
  | cons p rest ih =>
    intro fuel km um ap w h hfuel
    obtain ⟨n, rfl⟩ : ∃ n, fuel = n + 1 := ⟨fuel - 1, by simp at hfuel; omega⟩
    simp only [UploadsServed] at h
    obtain ⟨s0, hr, h2⟩ := h
    simp only [GetAllStatInfo.loop, hr]
    by_cases hp : p.IsTruncated = true
    case neg =>
      simp only [hp] at h2
      obtain ⟨rfl, rfl⟩ := h2
      simp [hp, statList_foldl, refsOfPages, Env.record]
    case pos =>
      simp only [hp, if_true] at h2 ⊢
      obtain ⟨h1, h3, h4⟩ := ih n p.NextKeyMarker p.NextUploadIDMarker
        { ap with statList :=
            p.Uploads.foldl (fun l v => l ++ [(⟨v.Key, v.UploadID⟩ : StatPartInfo)]) ap.statList }
        (w.record s0 (.ListMultipartUploads bucket
          [.MaxParts 1000, .KeyMarker km, .UploadIDMarker um] (.ok p)))
        h2 (by simp at hfuel; omega)
      refine ⟨h1, ?_, h4⟩
      rw [h3]; simp [statList_foldl, refsOfPages]

/-- C3, amended: for a freshly constructed command (empty `statList`) whose first argument
passes `CheckBucketUrl`, and any environment in which every SDK call of the run succeeds
(a client and a bucket handle are obtained twice, the upload listing the environment
serves is `pages` and ends with its first page that is not truncated, and for each listed
upload, asked for by its own key and upload id, the environment serves the listing of
`chains` at the same place) and every truncated page of parts carries a next-part-number
marker that `Atoi` parses, `RunCommand` reaches its end with a total part count equal to
the number of parts on all pages of all the listed uploads, each upload once, and a total
part size equal to the sum of their sizes, provided both fit in an `int64`, and returns
`nil`. -/
theorem C3_RunCommand_totals {σ : Type} (L : Lib) (R : Remote σ) (fuel : Nat)
    (apc : AllPartSizeCommand) (w : Env σ)
    (arg0 : String) (args : List String) (url : CloudURL)
    (c1 c2 : OssClient) (b1 b2 : OssBucket) (s1 s2 s3 s4 s5 s6 : σ)
    (pages : List ListMultipartUploadResult)
    (chains : List (List ListUploadedPartsResult))
    (hargs : apc.command.args = arg0 :: args)
    (hurl : CheckBucketUrl L arg0 = .ok url)
    (hfresh : apc.apOption.statList = [])
    (hclient1 : R.ossClient url.bucket w.remote = (.ok c1, s1))
    (hbucket1 : R.Bucket c1 url.bucket s1 = (.ok b1, s2))
    (huploads : UploadsServed R b1 "" "" s2 pages s3)
    (hclient2 : R.ossClient url.bucket s3 = (.ok c2, s4))
    (hbucket2 : R.Bucket c2 url.bucket s4 = (.ok b2, s5))
    (hparts : AllPartsServed L R b2 url.bucket (refsOfPages pages) s5 chains s6)
    (hfuel : pages.length ≤ fuel ∧ ∀ ch ∈ chains, ch.length ≤ fuel)
    (hcount : InInt64 (countOfPages (allPages chains)))
    (hsize : InInt64 (sizeOfPages (allPages chains))) :
    (RunCommand.body L R fuel apc w).1
        = .returned (.ok (countOfPages (allPages chains), sizeOfPages (allPages chains)))
    ∧ (RunCommand L R fuel apc w).1 = .returned none := by
  have hbody : (RunCommand.body L R fuel apc w).1
      = .returned (.ok (countOfPages (allPages chains), sizeOfPages (allPages chains))) := by
    simp only [RunCommand.body, hargs, hurl]
    generalize hap0 : ({ apc.apOption with
      bucketName := url.bucket,
      encodingType := (L.GetString L.OptionEncodingType apc.command.options).1 }
        : allPartSizeOptionType) = ap0
    have hap0s : ap0.statList = [] := by rw [← hap0]; exact hfresh
    have hap0b : ap0.bucketName = url.bucket := by rw [← hap0]
    have hG : GetAllStatInfo R fuel ap0 w
        = GetAllStatInfo.loop R b1 fuel "" "" ap0
            ((w.record s1 (.ossClient ap0.bucketName (.ok c1))).record s2
              (.Bucket c1 ap0.bucketName (.ok b1))) := by
      simp only [GetAllStatInfo, hap0b, hclient1, Env.record, hbucket1]
    obtain ⟨g1, g2, g3⟩ := GASI_loop_served R b1 s3 pages fuel "" "" ap0
      ((w.record s1 (.ossClient ap0.bucketName (.ok c1))).record s2
        (.Bucket c1 ap0.bucketName (.ok b1))) huploads hfuel.1
    rw [← hG] at g1 g2 g3
    generalize hg : GetAllStatInfo R fuel ap0 w = g at g1 g2 g3
    rcases g with ⟨st, ap1, w1⟩
    simp only at g1 g2 g3
    subst g1
    have hb1 : ap1.bucketName = url.bucket := by rw [g2]; exact hap0b
    have hst : ap1.statList = refsOfPages pages := by rw [g2]; simp [hap0s]
    simp only [hb1, g3, hclient2, Env.record, hbucket2]
    rw [hst, sum_served L R fuel b2 s6 (refsOfPages pages) chains 0 0 ap1 _
      (by rw [hb1]; exact hparts) hfuel.2 rfl rfl]
    simp only [zero_add, int64_of_inInt64 hcount, int64_of_inInt64 hsize]
  refine ⟨hbody, ?_⟩
  simp only [RunCommand]
  generalize hg : RunCommand.body L R fuel apc w = g at hbody
  rcases g with ⟨st, apc1, w1⟩
  simp only at hbody
  subst hbody
  simp only []
  split <;> rfl

/-- C3 amended, on an SDK whose answers depend on the request: two uploads, the first with
two pages of parts and the second with one part of 2048 bytes; four parts and 2205 bytes in
all. -/
theorem C3_RunCommand_totals_witness :
    (RunCommand.body exampleLib pagedSdk 2 exampleCommand ⟨(), [], []⟩).1
        = .returned (.ok (4, 2205))
    ∧ (RunCommand exampleLib pagedSdk 2 exampleCommand ⟨(), [], []⟩).1 = .returned none :=
  C3_RunCommand_totals exampleLib pagedSdk 2 exampleCommand ⟨(), [], []⟩
    "oss://b" [] ⟨"b", ""⟩ ⟨1⟩ ⟨1⟩ ⟨1⟩ ⟨1⟩ () () () () () ()
    [exampleUploads1, exampleUploads2] [[examplePage1, examplePage2], [repeatPage]]
    rfl (by decide) rfl rfl rfl
    ⟨(), by decide, ⟨(), by decide, rfl, rfl⟩⟩
    rfl rfl
    ⟨(), ⟨(), by decide, ⟨2, by decide, ⟨(), by decide, rfl, rfl⟩⟩⟩,
      ⟨(), ⟨(), by decide, rfl, rfl⟩, rfl⟩⟩
    ⟨by decide, by decide⟩ (by decide) (by decide)

/-- C3, refuted as stated: on a script in which every SDK call succeeds but the truncated
first page of parts carries the marker `x`, no call of the run failed, the pages of the
upload hold three parts and 157 bytes, and `RunCommand` ends with the `Atoi` error instead
of any totals. -/
theorem C3_counterexample :
    (∀ c ∈ (RunCommand exampleLib scripted 5 exampleCommand
              (scriptedEnv badMarkerScript)).2.2.calls, c.failure = none)
    ∧ countOfPages [badMarkerPage, examplePage2] = 3
    ∧ sizeOfPages [badMarkerPage, examplePage2] = 157
    ∧ (RunCommand.body exampleLib scripted 5 exampleCommand (scriptedEnv badMarkerScript)).1
        = .returned (.error (.numError "Atoi" "x" "invalid syntax"))
    ∧ (RunCommand exampleLib scripted 5 exampleCommand (scriptedEnv badMarkerScript)).1
        = .returned (some (.numError "Atoi" "x" "invalid syntax")) := by
  decide

end AllPartSize
